import Mathlib

/-!
# gmm-global-acc-stats: the statistics-accumulation driver

A shallow embedding of `gmmbin/gmm-global-acc-stats.cc` (the function `main`).

* Scalars (`BaseFloat`, `double`) are an arbitrary type `R` carrying `0`, `1`, `+`, `*`
  and a decidable equality; the structural results need no law of arithmetic at all,
  and the results about sums are stated in exact arithmetic, over a semiring
  (commutative for the occupancy).  Rounding is outside the model.
* The library objects the driver calls (`DiagGmm`, `Vector::ApplySoftMax`,
  `AccumDiagGmm`) are not part of the driver's source file.  Their numerical kernels
  are parameters (`DiagGmm`, `SoftMax`) and their data flow is modelled from the
  specification.  The scorer fails with `Fatal.dimMismatch` on a frame whose dimension
  is not the model's, as section 4.1 states; the specification states no other
  failure of a library call, and none is modelled.
* Component indices are `int32` in the source and natural numbers here (the data model
  keeps them in `[0, C)`); an index outside the accumulator updates nothing.
* The counters `num_done`, `num_err` are `int32` in the source; signed overflow is
  undefined in C++, so they are natural numbers here (runs of fewer than `2^31`
  utterances).
* Element accesses `weights(i)`, `gselect[i]`, `mat.Row(i)`, `this_gselect[j]`,
  `loglikes(j)` are checked accesses that stop with `Fatal.badIndex` when out of range,
  so that being within bounds is a theorem and not an assumption.
* Logging (`KALDI_WARN`, `KALDI_VLOG`, `KALDI_LOG`) has no effect on the state and is
  left out.
-/

set_option linter.unusedSectionVars false

namespace GmmGlobalAccStats

/-! ## Data model -/

/-- Ways in which the driver stops before reaching its last statement. -/
inductive Fatal where
  /-- the check `KALDI_ASSERT(gselect_size > 0)` of the frame loop failed -/
  | assertFailed
  /-- an element access was out of range -/
  | badIndex
  /-- the scorer was given a frame whose dimension is not the model's -/
  | dimMismatch
deriving DecidableEq

deriving instance DecidableEq for Except

/-- Update flags: the value of `StringToGmmFlags(update_flags_str)`. -/
structure GmmFlags where
  means : Bool
  variances : Bool
  weights : Bool
deriving DecidableEq

/-- Modelled from the spec: the class `AccumDiagGmm` (section 3, Statistics Accumulator):
per component an occupancy scalar, a mean-accumulation vector and a
variance-accumulation vector, gated by the update flags. -/
structure AccumDiagGmm (R : Type) where
  flags : GmmFlags
  occupancy : List R
  mean_accumulator : List (List R)
  variance_accumulator : List (List R)
deriving DecidableEq

/-- Modelled from the spec: the class `DiagGmm` (section 3, Mixture Model) seen through
its interface: component count, feature dimension, and the log-likelihood of one
component for one frame (the formula of section 4.1 is a parameter). -/
structure DiagGmm (R : Type) where
  NumGauss : Nat
  Dim : Nat
  ComponentLogLike : Nat → List R → R

/-- Modelled from the spec: the numerical kernel of `Vector::ApplySoftMax` (section 4.2):
`LogSumExp v` is the total log-likelihood of the vector `v`, and `Normalized v x` is
the normalized value that replaces the entry `x` of `v`. -/
structure SoftMax (R : Type) where
  LogSumExp : List R → R
  Normalized : List R → R → R

/-- One element of the feature stream: `feature_reader.Key()` and
`feature_reader.Value()`. -/
structure Utterance (R : Type) where
  key : String
  mat : List (List R)

/-- The two optional random-access tables.  `none` stands for an empty rspecifier
(`weights_rspecifier == ""`, `gselect_rspecifier == ""`); a table maps a key to its
value when `HasKey` holds. -/
structure Config (R : Type) where
  weights_reader : Option (String → Option (List R))
  gselect_reader : Option (String → Option (List (List Nat)))

/-- The variables of `main` that live across utterances. -/
structure DriverState (R : Type) where
  gmm_accs : AccumDiagGmm R
  tot_like : R
  tot_weight : R
  num_done : Nat
  num_err : Nat
deriving DecidableEq

/-- The variables of one pass of the utterance loop body: the accumulator together
with `file_like` and `file_weight`. -/
structure FileStats (R : Type) where
  gmm_accs : AccumDiagGmm R
  file_like : R
  file_weight : R
deriving DecidableEq

/-- What a run leaves behind: the exit status and the objects written to
`accs_wxfilename`, in order. -/
structure RunResult (R : Type) where
  status : Int
  sink : List (AccumDiagGmm R)
deriving DecidableEq

section Definitions

variable {R : Type} [Zero R] [One R] [Add R] [Mul R] [DecidableEq R]

/-! ## Library operations -/

/-- Apply `f` to the entry at position `c`; positions outside the list are left alone. -/
def updateAt {α : Type} (f : α → α) : List α → Nat → List α
  | [], _ => []
  | a :: as, 0 => f a :: as
  | a :: as, c + 1 => a :: updateAt f as c

/-- Elementwise `row += v`, keeping the length of `row`. -/
def addVec : List R → List R → List R
  | [], _ => []
  | a :: as, [] => a :: as
  | a :: as, b :: bs => (a + b) :: addVec as bs

/-- Modelled from the spec: `AccumDiagGmm::Resize` (section 3): buffers required by the
flag mask are sized to (C, D) and zero, the others stay empty. -/
def Resize (gmm : DiagGmm R) (flags : GmmFlags) : AccumDiagGmm R :=
  { flags := flags
    occupancy := List.replicate gmm.NumGauss 0
    mean_accumulator :=
      if flags.means || flags.variances then
        List.replicate gmm.NumGauss (List.replicate gmm.Dim 0)
      else []
    variance_accumulator :=
      if flags.variances then List.replicate gmm.NumGauss (List.replicate gmm.Dim 0)
      else [] }

/-- Modelled from the spec: `AccumDiagGmm::AccumulateForComponent` (section 4.3,
`AccumulateWeighted`): `occupancy[c] += r`; if means or variances are requested
`mean_acc[c] += r * x`; if variances are requested `var_acc[c] += r * x⊙x`; a
responsibility of exactly 0 is a no-op. -/
def AccumulateForComponent (acc : AccumDiagGmm R) (data : List R) (comp_index : Nat)
    (weight : R) : AccumDiagGmm R :=
  if weight = 0 then acc
  else
    { flags := acc.flags
      occupancy := updateAt (fun o => o + weight) acc.occupancy comp_index
      mean_accumulator :=
        if acc.flags.means || acc.flags.variances then
          updateAt (fun row => addVec row (data.map (fun x => weight * x)))
            acc.mean_accumulator comp_index
        else acc.mean_accumulator
      variance_accumulator :=
        if acc.flags.variances then
          updateAt (fun row => addVec row (data.map (fun x => weight * (x * x))))
            acc.variance_accumulator comp_index
        else acc.variance_accumulator }

/-- The log-likelihoods of the components `indices` for a frame, in the order of
`indices` (section 4.1: one value per targeted component). -/
def scoreComponents (gmm : DiagGmm R) (data : List R) (indices : List Nat) : List R :=
  indices.map (fun c => gmm.ComponentLogLike c data)

/-- Modelled from the spec: `DiagGmm::LogLikelihoodsPreselect` (section 4.1, `ScoreFrame`
with candidates): fails with a dimension-mismatch error if the dimension of the frame
is not D; otherwise one log-likelihood per candidate, in the order of the candidates.
That the candidate list is not empty is checked by the caller (line 122). -/
def LogLikelihoodsPreselect (gmm : DiagGmm R) (data : List R) (indices : List Nat) :
    Except Fatal (List R) :=
  if data.length ≠ gmm.Dim then .error .dimMismatch
  else .ok (scoreComponents gmm data indices)

/-- Modelled from the spec: `DiagGmm::LogLikelihoods` (section 4.1, `ScoreFrame` without
candidates): fails with a dimension-mismatch error if the dimension of the frame is
not D; otherwise one log-likelihood per component of the model. -/
def LogLikelihoods (gmm : DiagGmm R) (data : List R) : Except Fatal (List R) :=
  if data.length ≠ gmm.Dim then .error .dimMismatch
  else .ok (scoreComponents gmm data (List.range gmm.NumGauss))

/-- Modelled from the spec: `Vector::ApplySoftMax` (section 4.2): the vector is replaced
by its normalized posteriors and the total log-likelihood is returned. -/
def ApplySoftMax (sm : SoftMax R) (v : List R) : R × List R :=
  (sm.LogSumExp v, v.map (sm.Normalized v))

/-- Modelled from the spec: `Vector::Scale`: every entry is multiplied by `alpha`. -/
def Scale (v : List R) (alpha : R) : List R :=
  v.map (fun p => p * alpha)

/-- Fold `AccumulateForComponent` over (component, responsibility) pairs, in order. -/
def accumulatePairs (acc : AccumDiagGmm R) (data : List R) :
    List (Nat × R) → AccumDiagGmm R
  | [] => acc
  | (c, p) :: rest => accumulatePairs (AccumulateForComponent acc data c p) data rest

/-- Modelled from the spec: `AccumDiagGmm::AccumulateFromDiag` (section 4.3,
`AccumulateFromModelDirect`): scores all components (failing as the scorer fails),
normalizes, scales the responsibilities by the frame weight, accumulates for every
component, and returns the unweighted total log-likelihood of the frame. -/
def AccumulateFromDiag (sm : SoftMax R) (gmm : DiagGmm R) (acc : AccumDiagGmm R)
    (data : List R) (frame_posterior : R) : Except Fatal (R × AccumDiagGmm R) :=
  match LogLikelihoods gmm data with
  | .error e => .error e
  | .ok loglikes =>
    let r := ApplySoftMax sm loglikes
    let post := Scale r.2 frame_posterior
    .ok (r.1, accumulatePairs acc data ((List.range post.length).zip post))

/-! ## The driver, statement by statement -/

/-- Lines 116 and 132: `(weights.Dim() != 0) ? weights(i) : 1.0`. -/
def frameWeight (weights : List R) (i : Nat) : Except Fatal R :=
  if weights.length ≠ 0 then
    match weights[i]? with
    | some w => .ok w
    | none => .error .badIndex
  else .ok 1

/-- Lines 83-97: the per-frame weights of an utterance.  `none` is the skip
(`num_err++; continue`); without a weight source the vector stays empty. -/
def readWeights (cfg : Config R) (key : String) (file_frames : Nat) : Option (List R) :=
  match cfg.weights_reader with
  | none => some []
  | some reader =>
    match reader key with
    | none => none
    | some weights => if weights.length ≠ file_frames then none else some weights

/-- Lines 127-128: the loop `for (j = 0; j < loglikes.Dim(); j++)`, with `n` the number
of passes left and `j` the loop variable. -/
def accumulateSelected (data : List R) (this_gselect : List Nat) (loglikes : List R) :
    Nat → Nat → AccumDiagGmm R → Except Fatal (AccumDiagGmm R)
  | 0, _, acc => .ok acc
  | n + 1, j, acc =>
    match this_gselect[j]?, loglikes[j]? with
    | some c, some p =>
      accumulateSelected data this_gselect loglikes n (j + 1)
        (AccumulateForComponent acc data c p)
    | _, _ => .error .badIndex

/-- Lines 115-129: the frame loop of the gselect branch, with `n` the number of passes
left and `i` the loop variable. -/
def gselectLoop (sm : SoftMax R) (gmm : DiagGmm R) (mat : List (List R))
    (weights : List R) (gselect : List (List Nat)) :
    Nat → Nat → FileStats R → Except Fatal (FileStats R)
  | 0, _, s => .ok s
  | n + 1, i, s =>
    match frameWeight weights i with
    | .error e => .error e
    | .ok weight =>
      if weight = 0 then gselectLoop sm gmm mat weights gselect n (i + 1) s
      else
        match mat[i]?, gselect[i]? with
        | some data, some this_gselect =>
          if this_gselect.length = 0 then .error .assertFailed
          else
            match LogLikelihoodsPreselect gmm data this_gselect with
            | .error e => .error e
            | .ok scores =>
              let r := ApplySoftMax sm scores
              let loglikes := Scale r.2 weight
              match accumulateSelected data this_gselect loglikes loglikes.length 0
                  s.gmm_accs with
              | .error e => .error e
              | .ok acc =>
                gselectLoop sm gmm mat weights gselect n (i + 1)
                  { gmm_accs := acc
                    file_like := s.file_like + weight * r.1
                    file_weight := s.file_weight + weight }
        | _, _ => .error .badIndex

/-- Lines 131-137: the frame loop of the branch without gselect. -/
def plainLoop (sm : SoftMax R) (gmm : DiagGmm R) (mat : List (List R))
    (weights : List R) : Nat → Nat → FileStats R → Except Fatal (FileStats R)
  | 0, _, s => .ok s
  | n + 1, i, s =>
    match frameWeight weights i with
    | .error e => .error e
    | .ok weight =>
      if weight = 0 then plainLoop sm gmm mat weights n (i + 1) s
      else
        match mat[i]? with
        | some data =>
          match AccumulateFromDiag sm gmm s.gmm_accs data weight with
          | .error e => .error e
          | .ok r =>
            plainLoop sm gmm mat weights n (i + 1)
              { gmm_accs := r.2
                file_like := s.file_like + weight * r.1
                file_weight := s.file_weight + weight }
        | none => .error .badIndex

/-- Lines 80-81: the state at the start of a pass of the utterance loop. -/
def startFile (st : DriverState R) : FileStats R :=
  { gmm_accs := st.gmm_accs, file_like := 0, file_weight := 0 }

/-- Lines 142-144: `tot_like += file_like; tot_weight += file_weight; num_done++`. -/
def finishFile (st : DriverState R) (s : FileStats R) : DriverState R :=
  { gmm_accs := s.gmm_accs
    tot_like := st.tot_like + s.file_like
    tot_weight := st.tot_weight + s.file_weight
    num_done := st.num_done + 1
    num_err := st.num_err }

/-- The skip `num_err++; continue`. -/
def skipFile (st : DriverState R) : DriverState R :=
  { st with num_err := st.num_err + 1 }

/-- Lines 115-138: the frame loops of one utterance that passed both resolutions,
started from accumulator `acc` and zero totals. -/
def frameLoops (sm : SoftMax R) (gmm : DiagGmm R) (acc : AccumDiagGmm R)
    (mat : List (List R)) (weights : List R) (gselect : Option (List (List Nat))) :
    Except Fatal (FileStats R) :=
  match gselect with
  | some g =>
    gselectLoop sm gmm mat weights g mat.length 0
      { gmm_accs := acc, file_like := 0, file_weight := 0 }
  | none =>
    plainLoop sm gmm mat weights mat.length 0
      { gmm_accs := acc, file_like := 0, file_weight := 0 }

/-- Lines 77-144: one pass of the utterance loop. -/
def processUtt (sm : SoftMax R) (gmm : DiagGmm R) (cfg : Config R) (st : DriverState R)
    (utt : Utterance R) : Except Fatal (DriverState R) :=
  match readWeights cfg utt.key utt.mat.length with
  | none => .ok (skipFile st)
  | some weights =>
    match cfg.gselect_reader with
    | some reader =>
      match reader utt.key with
      | none => .ok (skipFile st)
      | some gselect =>
        if gselect.length ≠ utt.mat.length then .ok (skipFile st)
        else
          match gselectLoop sm gmm utt.mat weights gselect utt.mat.length 0
              (startFile st) with
          | .error e => .error e
          | .ok s => .ok (finishFile st s)
    | none =>
      match plainLoop sm gmm utt.mat weights utt.mat.length 0 (startFile st) with
      | .error e => .error e
      | .ok s => .ok (finishFile st s)

/-- Line 76: the loop over the feature stream. -/
def runLoop (sm : SoftMax R) (gmm : DiagGmm R) (cfg : Config R) :
    List (Utterance R) → DriverState R → Except Fatal (DriverState R)
  | [], st => .ok st
  | utt :: rest, st =>
    match processUtt sm gmm cfg st utt with
    | .error e => .error e
    | .ok st1 => runLoop sm gmm cfg rest st1

/-- Lines 66-74: the state before the first utterance. -/
def initState (gmm : DiagGmm R) (flags : GmmFlags) : DriverState R :=
  { gmm_accs := Resize gmm flags, tot_like := 0, tot_weight := 0, num_done := 0,
    num_err := 0 }

/-- The function `main`: `numArgs` is `po.NumArgs()`, `flags` the parsed update flags,
`feats` the feature stream.  A wrong argument count prints the usage and exits with 1
(lines 50-53); an error raised inside the `try` block ends in the handler, which
returns -1 (lines 155-158); otherwise the accumulator is written and the status is
`num_done != 0 ? 0 : 1` (lines 152-154).  Modelled from the spec: a failed
`KALDI_ASSERT` is a fatal error that reaches the handler (section 7). -/
def main (sm : SoftMax R) (gmm : DiagGmm R) (cfg : Config R) (numArgs : Nat)
    (flags : GmmFlags) (feats : List (Utterance R)) : RunResult R :=
  if numArgs ≠ 3 then { status := 1, sink := [] }
  else
    match runLoop sm gmm cfg feats (initState gmm flags) with
    | .error _ => { status := -1, sink := [] }
    | .ok st => { status := if st.num_done ≠ 0 then 0 else 1, sink := [st.gmm_accs] }

/-! ## The same loops over the list of frames

The loops above follow the source index by index.  The definitions below walk the
frames as a list; they are proved equal to the loops and carry the proofs. -/

/-- The weight of every frame: the weight vector, or `1.0` for each of the `n` frames
when the vector is empty. -/
def effWeights (weights : List R) (n : Nat) : List R :=
  if weights.length ≠ 0 then weights else List.replicate n 1

/-- One pass of the body of the gselect frame loop (lines 116-128). -/
def selFrame (sm : SoftMax R) (gmm : DiagGmm R) (s : FileStats R) (data : List R)
    (weight : R) (this_gselect : List Nat) : Except Fatal (FileStats R) :=
  if weight = 0 then .ok s
  else if this_gselect.length = 0 then .error .assertFailed
  else if data.length ≠ gmm.Dim then .error .dimMismatch
  else
    let r := ApplySoftMax sm (scoreComponents gmm data this_gselect)
    .ok { gmm_accs := accumulatePairs s.gmm_accs data (this_gselect.zip (Scale r.2 weight))
          file_like := s.file_like + weight * r.1
          file_weight := s.file_weight + weight }

/-- The gselect frame loop over the list of (frame, weight, candidates). -/
def selFrames (sm : SoftMax R) (gmm : DiagGmm R) :
    List (List R × R × List Nat) → FileStats R → Except Fatal (FileStats R)
  | [], s => .ok s
  | (data, weight, sel) :: rest, s =>
    match selFrame sm gmm s data weight sel with
    | .error e => .error e
    | .ok s1 => selFrames sm gmm rest s1

/-- One pass of the body of the frame loop without gselect (lines 132-136). -/
def plainFrame (sm : SoftMax R) (gmm : DiagGmm R) (s : FileStats R) (data : List R)
    (weight : R) : Except Fatal (FileStats R) :=
  if weight = 0 then .ok s
  else if data.length ≠ gmm.Dim then .error .dimMismatch
  else
    let r := ApplySoftMax sm (scoreComponents gmm data (List.range gmm.NumGauss))
    .ok { gmm_accs :=
            accumulatePairs s.gmm_accs data ((List.range gmm.NumGauss).zip (Scale r.2 weight))
          file_like := s.file_like + weight * r.1
          file_weight := s.file_weight + weight }

/-- The frame loop without gselect over the list of (frame, weight). -/
def plainFrames (sm : SoftMax R) (gmm : DiagGmm R) :
    List (List R × R) → FileStats R → Except Fatal (FileStats R)
  | [], s => .ok s
  | (data, weight) :: rest, s =>
    match plainFrame sm gmm s data weight with
    | .error e => .error e
    | .ok s1 => plainFrames sm gmm rest s1

/-- Lines 83-113 on their own: the weights and the selection lists of an utterance
that is not skipped, `none` for an utterance that is skipped. -/
def resolve (cfg : Config R) (utt : Utterance R) :
    Option (List R × Option (List (List Nat))) :=
  match readWeights cfg utt.key utt.mat.length with
  | none => none
  | some weights =>
    match cfg.gselect_reader with
    | none => some (weights, none)
    | some reader =>
      match reader utt.key with
      | none => none
      | some gselect =>
        if gselect.length ≠ utt.mat.length then none else some (weights, some gselect)

/-! ## Vocabulary of the claims -/

/-- A weight source is configured and the utterance has no weight entry, or its weight
vector has a length different from the frame count. -/
def weightsViolation (cfg : Config R) (utt : Utterance R) : Bool :=
  match cfg.weights_reader with
  | none => false
  | some reader =>
    match reader utt.key with
    | none => true
    | some weights => decide (weights.length ≠ utt.mat.length)

/-- A selection source is configured and the utterance has no selection entry, or its
selection list has a length different from the frame count. -/
def gselectViolation (cfg : Config R) (utt : Utterance R) : Bool :=
  match cfg.gselect_reader with
  | none => false
  | some reader =>
    match reader utt.key with
    | none => true
    | some gselect => decide (gselect.length ≠ utt.mat.length)

/-- The computation stopped with a fatal error. -/
def aborted {α : Type} : Except Fatal α → Bool
  | .error _ => true
  | .ok _ => false

/-- Some frame with a non-zero weight has a dimension that is not the model's
(`weights` as resolved for the utterance). -/
def wrongDimension (gmm : DiagGmm R) (mat : List (List R)) (weights : List R) : Bool :=
  (mat.zip (effWeights weights mat.length)).any
    (fun p => decide (p.2 ≠ 0) && decide (p.1.length ≠ gmm.Dim))

/-- Some frame with a non-zero weight has an empty candidate list (`weights` and
`gselect` as resolved for an utterance of `n` frames). -/
def emptyCandidates (weights : List R) (n : Nat) (gselect : List (List Nat)) : Bool :=
  ((effWeights weights n).zip gselect).any (fun p => decide (p.1 ≠ 0) && p.2.isEmpty)

/-- Keep the entries whose mask bit is set. -/
def keepWhere {α : Type} : List Bool → List α → List α
  | b :: bs, a :: as => if b then a :: keepWhere bs as else keepWhere bs as
  | [], _ => []
  | _ :: _, [] => []

/-- For each of the `n` frames, whether its weight differs from 0. -/
def nonZeroMask (weights : List R) (n : Nat) : List Bool :=
  (effWeights weights n).map (fun w => decide (w ≠ 0))

/-- The frames of an utterance without the frames of weight exactly 0. -/
def dropZeroFrames (weights : List R) (mat : List (List R)) : List (List R) :=
  keepWhere (nonZeroMask weights mat.length) mat

/-- The weight vector without the entries of the frames of weight exactly 0. -/
def dropZeroWeights (weights : List R) (n : Nat) : List R :=
  keepWhere (nonZeroMask weights n) weights

/-- The selection lists without the entries of the frames of weight exactly 0. -/
def dropZeroGselect (weights : List R) (n : Nat) (gselect : List (List Nat)) :
    List (List Nat) :=
  keepWhere (nonZeroMask weights n) gselect

/-- The tables in which the entries of `utt` are replaced by the entries without the
frames of weight exactly 0 (`weights` is the weight vector resolved for `utt`). -/
def dropZeroConfig (cfg : Config R) (utt : Utterance R) (weights : List R) : Config R :=
  { weights_reader :=
      match cfg.weights_reader with
      | none => none
      | some reader =>
        some (fun k =>
          if k = utt.key then some (dropZeroWeights weights utt.mat.length) else reader k)
    gselect_reader :=
      match cfg.gselect_reader with
      | none => none
      | some reader =>
        some (fun k =>
          if k = utt.key then (reader k).map (dropZeroGselect weights utt.mat.length)
          else reader k) }

/-- The total log-likelihood of a frame: over its candidate list, or over all
components when there is no selection. -/
def frameLogLike (sm : SoftMax R) (gmm : DiagGmm R) (data : List R) :
    Option (List Nat) → R
  | some sel => (ApplySoftMax sm (scoreComponents gmm data sel)).1
  | none => (ApplySoftMax sm (scoreComponents gmm data (List.range gmm.NumGauss))).1

/-- The accumulator after one frame of weight `w`: the frame is scored over its
candidates (all components when there is no selection), the scores are normalized,
each posterior is scaled by `w`, and the result is accumulated for every candidate. -/
def frameUpdate (sm : SoftMax R) (gmm : DiagGmm R) (acc : AccumDiagGmm R) (data : List R)
    (w : R) : Option (List Nat) → AccumDiagGmm R
  | some sel =>
    accumulatePairs acc data
      (sel.zip (Scale (ApplySoftMax sm (scoreComponents gmm data sel)).2 w))
  | none =>
    accumulatePairs acc data
      ((List.range gmm.NumGauss).zip
        (Scale (ApplySoftMax sm (scoreComponents gmm data (List.range gmm.NumGauss))).2 w))

/-- The accumulator after an utterance: updates from the frames whose weight is not 0
only, each with its posteriors scaled by the weight of the frame, in the order of the
frames. -/
def updatedAccs (sm : SoftMax R) (gmm : DiagGmm R) (acc : AccumDiagGmm R)
    (mat : List (List R)) (weights : List R) : Option (List (List Nat)) → AccumDiagGmm R
  | some g =>
    ((mat.zip ((effWeights weights mat.length).zip g)).filter
        (fun t => decide (t.2.1 ≠ 0))).foldl
      (fun a t => frameUpdate sm gmm a t.1 t.2.1 (some t.2.2)) acc
  | none =>
    ((mat.zip (effWeights weights mat.length)).filter (fun t => decide (t.2 ≠ 0))).foldl
      (fun a t => frameUpdate sm gmm a t.1 t.2 none) acc

/-- The sum over the frames of an utterance of the frame weight times the total
log-likelihood of the frame. -/
def weightedLogLike (sm : SoftMax R) (gmm : DiagGmm R) (mat : List (List R))
    (weights : List R) : Option (List (List Nat)) → R
  | some g =>
    ((mat.zip ((effWeights weights mat.length).zip g)).map
      (fun t => t.2.1 * frameLogLike sm gmm t.1 (some t.2.2))).sum
  | none =>
    ((mat.zip (effWeights weights mat.length)).map
      (fun t => t.2 * frameLogLike sm gmm t.1 none)).sum

/-- The normalized posterior of component `c` for a frame with candidates `sel` whose
normalized posteriors are `post`, in the order of the candidates: the sum of the
entries at the positions that hold `c`, hence the entry of `c` when the candidates are
distinct and 0 when `c` is not a candidate. -/
def posteriorFor (sel : List Nat) (post : List R) (c : Nat) : R :=
  ((sel.zip post).map (fun p => if p.1 = c then p.2 else 0)).sum

/-- The normalized posterior of component `c` for a frame, taken over the candidate
list of the frame, or over all components when there is no selection. -/
def framePosterior (sm : SoftMax R) (gmm : DiagGmm R) (data : List R) :
    Option (List Nat) → Nat → R
  | some sel, c =>
    posteriorFor sel (ApplySoftMax sm (scoreComponents gmm data sel)).2 c
  | none, c =>
    posteriorFor (List.range gmm.NumGauss)
      (ApplySoftMax sm (scoreComponents gmm data (List.range gmm.NumGauss))).2 c

/-- The sum, over the frames of an utterance whose weight is not 0, of the frame weight
times the posterior of component `c` for the frame. -/
def utteranceOccupancy (sm : SoftMax R) (gmm : DiagGmm R) (mat : List (List R))
    (weights : List R) : Option (List (List Nat)) → Nat → R
  | some g, c =>
    (((mat.zip ((effWeights weights mat.length).zip g)).filter
        (fun t => decide (t.2.1 ≠ 0))).map
      (fun t => t.2.1 * framePosterior sm gmm t.1 (some t.2.2) c)).sum
  | none, c =>
    (((mat.zip (effWeights weights mat.length)).filter (fun t => decide (t.2 ≠ 0))).map
      (fun t => t.2 * framePosterior sm gmm t.1 none c)).sum

/-- The sum of `utteranceOccupancy` over the utterances of the stream that are not
skipped. -/
def expectedOccupancy (sm : SoftMax R) (gmm : DiagGmm R) (cfg : Config R)
    (feats : List (Utterance R)) (c : Nat) : R :=
  (feats.map (fun utt =>
    match resolve cfg utt with
    | none => 0
    | some (weights, gsel) => utteranceOccupancy sm gmm utt.mat weights gsel c)).sum

/-- Entry `c` of a vector, 0 outside of it. -/
def entryAt : List R → Nat → R
  | [], _ => 0
  | a :: _, 0 => a
  | _ :: as, c + 1 => entryAt as c

/-- The utterance passes weight and selection resolution: it is not skipped. -/
def notSkipped (cfg : Config R) (utt : Utterance R) : Bool :=
  !(weightsViolation cfg utt) && !(gselectViolation cfg utt)

end Definitions

/-! ## A concrete instance

A two-component model on one-dimensional frames with integer scalars.  The score of
component `c` is minus the squared distance of the frame to the mean `10 * c`; the
normalizer is the hard-assignment limit of the softmax (total log-likelihood is the
best score, the posterior is 1 for a best-scoring entry and 0 otherwise). -/

/-- The update flags "mvw". -/
def demoFlags : GmmFlags := { means := true, variances := true, weights := true }

/-- Two components with means 0 and 10. -/
def demoGmm : DiagGmm ℤ :=
  { NumGauss := 2
    Dim := 1
    ComponentLogLike := fun c x =>
      - ((x.headD 0 - 10 * (c : ℤ)) * (x.headD 0 - 10 * (c : ℤ))) }

/-- Hard-assignment normalizer. -/
def demoSoftMax : SoftMax ℤ :=
  { LogSumExp := fun v => v.foldl max (v.headD 0)
    Normalized := fun v x => if x = v.foldl max (v.headD 0) then 1 else 0 }

/-- Three frames. -/
def demoUtt : Utterance ℤ := { key := "utt1", mat := [[0], [3], [10]] }

/-- Weights `[1, 0, 2]` for "utt1", no selection source. -/
def cfgWeights : Config ℤ :=
  { weights_reader := some (fun k => if k = "utt1" then some [1, 0, 2] else none)
    gselect_reader := none }

/-- Weights `[1, 0, 2]` and selection lists `[[0, 1], [], [1]]` for "utt1". -/
def cfgBoth : Config ℤ :=
  { weights_reader := some (fun k => if k = "utt1" then some [1, 0, 2] else none)
    gselect_reader := some (fun k => if k = "utt1" then some [[0, 1], [], [1]] else none) }

/-- All weights zero and all selection lists empty for "utt1". -/
def cfgZero : Config ℤ :=
  { weights_reader := some (fun k => if k = "utt1" then some [0, 0, 0] else none)
    gselect_reader := some (fun k => if k = "utt1" then some [[], [], []] else none) }

/-- Weights of the wrong length and no selection entry for "utt1". -/
def cfgBad : Config ℤ :=
  { weights_reader := some (fun k => if k = "utt1" then some [1, 2] else none)
    gselect_reader := some (fun _ => none) }

/-- Three frames away from the means. -/
def offUtt : Utterance ℤ := { key := "utt1", mat := [[1], [3], [8]] }

/-- Selection lists `[[0], [], [1]]` for "utt1", no weight source: the second frame has
weight 1 and an empty candidate list. -/
def cfgEmptySel : Config ℤ :=
  { weights_reader := none
    gselect_reader := some (fun k => if k = "utt1" then some [[0], [], [1]] else none) }


/-! ## The index loops and the list loops agree -/

section Loops

variable {R : Type} [Zero R] [One R] [Add R] [Mul R] [DecidableEq R]

theorem effWeights_length (weights : List R) (n : Nat)
    (hw : weights.length = n ∨ weights = []) : (effWeights weights n).length = n := by
  unfold effWeights
  rcases hw with h | h
  · subst h
    by_cases h0 : weights.length = 0
    · simp [h0]
    · simp [h0]
  · subst h; simp

theorem frameWeight_eq (weights : List R) (n i : Nat)
    (hw : weights.length = n ∨ weights = []) (hi : i < n) :
    ∃ w, (effWeights weights n)[i]? = some w ∧ frameWeight weights i = .ok w := by
  unfold effWeights frameWeight
  by_cases h0 : weights.length ≠ 0
  · have hlen : weights.length = n := by
      rcases hw with h | h
      · exact h
      · subst h; simp at h0
    have hi2 : i < weights.length := by omega
    refine ⟨weights[i], ?_, ?_⟩
    · simp [h0, List.getElem?_eq_getElem hi2]
    · simp [h0, List.getElem?_eq_getElem hi2]
  · refine ⟨1, ?_, ?_⟩
    · simp [h0, List.getElem?_replicate, hi]
    · simp [h0]

theorem accumulateSelected_eq (data : List R) (sel : List Nat) (post : List R)
    (hlen : post.length ≤ sel.length) :
    ∀ (n j : Nat) (acc : AccumDiagGmm R), j + n = post.length →
      accumulateSelected data sel post n j acc
        = .ok (accumulatePairs acc data ((sel.drop j).zip (post.drop j))) := by
  intro n
  induction n with
  | zero =>
    intro j acc h
    have : post.drop j = [] := List.drop_eq_nil_of_le (by omega)
    simp [accumulateSelected, this, accumulatePairs]
  | succ n ih =>
    intro j acc h
    have hj : j < post.length := by omega
    have hj2 : j < sel.length := by omega
    rw [List.drop_eq_getElem_cons hj, List.drop_eq_getElem_cons hj2]
    simp only [accumulateSelected, List.getElem?_eq_getElem hj, List.getElem?_eq_getElem hj2,
      List.zip_cons_cons, accumulatePairs]
    exact ih (j + 1) _ (by omega)

theorem scaled_length (sm : SoftMax R) (gmm : DiagGmm R) (data : List R) (sel : List Nat)
    (w : R) :
    (Scale (ApplySoftMax sm (scoreComponents gmm data sel)).2 w).length = sel.length := by
  simp [Scale, ApplySoftMax, scoreComponents]

theorem accumulateSelected_scaled (sm : SoftMax R) (gmm : DiagGmm R) (data : List R)
    (sel : List Nat) (w : R) (acc : AccumDiagGmm R) :
    accumulateSelected data sel
        (Scale (ApplySoftMax sm (scoreComponents gmm data sel)).2 w)
        (Scale (ApplySoftMax sm (scoreComponents gmm data sel)).2 w).length 0 acc
      = .ok (accumulatePairs acc data
          (sel.zip (Scale (ApplySoftMax sm (scoreComponents gmm data sel)).2 w))) := by
  have h := accumulateSelected_eq data sel
    (Scale (ApplySoftMax sm (scoreComponents gmm data sel)).2 w)
    (Nat.le_of_eq (scaled_length sm gmm data sel w))
    (Scale (ApplySoftMax sm (scoreComponents gmm data sel)).2 w).length 0 acc
    (Nat.zero_add _)
  simpa using h

/-- The scorer with candidates: an error on a frame of the wrong dimension, the scores
of the candidates otherwise. -/
theorem LogLikelihoodsPreselect_eq (gmm : DiagGmm R) (data : List R) (sel : List Nat) :
    LogLikelihoodsPreselect gmm data sel
      = if data.length ≠ gmm.Dim then .error .dimMismatch
        else .ok (scoreComponents gmm data sel) := rfl

/-- The composite of the branch without selection, unfolded. -/
theorem AccumulateFromDiag_eq (sm : SoftMax R) (gmm : DiagGmm R) (acc : AccumDiagGmm R)
    (data : List R) (w : R) :
    AccumulateFromDiag sm gmm acc data w
      = if data.length ≠ gmm.Dim then .error .dimMismatch
        else .ok ((ApplySoftMax sm (scoreComponents gmm data (List.range gmm.NumGauss))).1,
          accumulatePairs acc data ((List.range gmm.NumGauss).zip
            (Scale (ApplySoftMax sm
              (scoreComponents gmm data (List.range gmm.NumGauss))).2 w))) := by
  have hlen : (Scale (ApplySoftMax sm
      (scoreComponents gmm data (List.range gmm.NumGauss))).2 w).length = gmm.NumGauss := by
    simp [Scale, ApplySoftMax, scoreComponents]
  unfold AccumulateFromDiag LogLikelihoods
  by_cases hd : data.length = gmm.Dim
  · simp only [hd, ne_eq, not_true_eq_false, if_false, hlen]
  · simp only [hd, ne_eq, not_false_eq_true, if_true]

theorem gselectLoop_eq (sm : SoftMax R) (gmm : DiagGmm R) (mat : List (List R))
    (weights : List R) (gselect : List (List Nat))
    (hw : weights.length = mat.length ∨ weights = [])
    (hg : gselect.length = mat.length) :
    ∀ (n i : Nat) (s : FileStats R), i + n = mat.length →
      gselectLoop sm gmm mat weights gselect n i s
        = selFrames sm gmm
            ((mat.drop i).zip (((effWeights weights mat.length).drop i).zip (gselect.drop i)))
            s := by
  intro n
  induction n with
  | zero =>
    intro i s h
    have : mat.drop i = [] := List.drop_eq_nil_of_le (by omega)
    simp [gselectLoop, this, selFrames]
  | succ n ih =>
    intro i s h
    have hi : i < mat.length := by omega
    have hi2 : i < gselect.length := by omega
    obtain ⟨w, hw1, hw2⟩ := frameWeight_eq weights mat.length i hw hi
    have hi3 : i < (effWeights weights mat.length).length := by
      rw [effWeights_length _ _ hw]; exact hi
    have hw3 : (effWeights weights mat.length)[i] = w := by
      rw [List.getElem?_eq_getElem hi3] at hw1
      exact Option.some.inj hw1
    rw [List.drop_eq_getElem_cons hi, List.drop_eq_getElem_cons hi2,
      List.drop_eq_getElem_cons hi3, hw3]
    simp only [List.zip_cons_cons, selFrames, selFrame, gselectLoop, hw2,
      List.getElem?_eq_getElem hi, List.getElem?_eq_getElem hi2, LogLikelihoodsPreselect]
    by_cases hz : w = 0
    · simp only [hz, if_true]
      exact ih (i + 1) s (by omega)
    · simp only [hz, if_false]
      by_cases he : (gselect[i]).length = 0
      · simp only [he, if_true]
      · simp only [he, if_false]
        by_cases hd : (mat[i]).length = gmm.Dim
        · simp only [hd, ne_eq, not_true_eq_false, if_false, accumulateSelected_scaled]
          exact ih (i + 1) _ (by omega)
        · simp only [hd, ne_eq, not_false_eq_true, if_true]

theorem plainLoop_eq (sm : SoftMax R) (gmm : DiagGmm R) (mat : List (List R))
    (weights : List R) (hw : weights.length = mat.length ∨ weights = []) :
    ∀ (n i : Nat) (s : FileStats R), i + n = mat.length →
      plainLoop sm gmm mat weights n i s
        = plainFrames sm gmm
            ((mat.drop i).zip ((effWeights weights mat.length).drop i)) s := by
  intro n
  induction n with
  | zero =>
    intro i s h
    have : mat.drop i = [] := List.drop_eq_nil_of_le (by omega)
    simp [plainLoop, this, plainFrames]
  | succ n ih =>
    intro i s h
    have hi : i < mat.length := by omega
    obtain ⟨w, hw1, hw2⟩ := frameWeight_eq weights mat.length i hw hi
    have hi3 : i < (effWeights weights mat.length).length := by
      rw [effWeights_length _ _ hw]; exact hi
    have hw3 : (effWeights weights mat.length)[i] = w := by
      rw [List.getElem?_eq_getElem hi3] at hw1
      exact Option.some.inj hw1
    rw [List.drop_eq_getElem_cons hi, List.drop_eq_getElem_cons hi3, hw3]
    simp only [List.zip_cons_cons, plainFrames, plainFrame, plainLoop, hw2,
      List.getElem?_eq_getElem hi, AccumulateFromDiag_eq]
    by_cases hz : w = 0
    · simp only [hz, if_true]
      exact ih (i + 1) s (by omega)
    · simp only [hz, if_false]
      by_cases hd : (mat[i]).length = gmm.Dim
      · simp only [hd, ne_eq, not_true_eq_false, if_false]
        exact ih (i + 1) _ (by omega)
      · simp only [hd, ne_eq, not_false_eq_true, if_true]

/-- The frames of an utterance as the list loops see them. -/
theorem frameLoops_some (sm : SoftMax R) (gmm : DiagGmm R) (acc : AccumDiagGmm R)
    (mat : List (List R)) (weights : List R) (g : List (List Nat))
    (hw : weights.length = mat.length ∨ weights = []) (hg : g.length = mat.length) :
    frameLoops sm gmm acc mat weights (some g)
      = selFrames sm gmm (mat.zip ((effWeights weights mat.length).zip g))
          { gmm_accs := acc, file_like := 0, file_weight := 0 } := by
  have h := gselectLoop_eq sm gmm mat weights g hw hg mat.length 0
    { gmm_accs := acc, file_like := 0, file_weight := 0 } (by simp)
  simpa [frameLoops] using h

theorem frameLoops_none (sm : SoftMax R) (gmm : DiagGmm R) (acc : AccumDiagGmm R)
    (mat : List (List R)) (weights : List R)
    (hw : weights.length = mat.length ∨ weights = []) :
    frameLoops sm gmm acc mat weights none
      = plainFrames sm gmm (mat.zip (effWeights weights mat.length))
          { gmm_accs := acc, file_like := 0, file_weight := 0 } := by
  have h := plainLoop_eq sm gmm mat weights hw mat.length 0
    { gmm_accs := acc, file_like := 0, file_weight := 0 } (by simp)
  simpa [frameLoops] using h

/-- The frame loops as the driver starts them, from `startFile`. -/
theorem startFile_loops_eq (sm : SoftMax R) (gmm : DiagGmm R) (st : DriverState R)
    (mat : List (List R)) (weights : List R) (gsel : Option (List (List Nat))) :
    (match gsel with
      | some g => gselectLoop sm gmm mat weights g mat.length 0 (startFile st)
      | none => plainLoop sm gmm mat weights mat.length 0 (startFile st))
      = frameLoops sm gmm st.gmm_accs mat weights gsel := by
  cases gsel <;> rfl

/-- Resolution fixes the lengths the frame loops rely on. -/
theorem resolve_lengths (cfg : Config R) (utt : Utterance R) (weights : List R)
    (gsel : Option (List (List Nat))) (h : resolve cfg utt = some (weights, gsel)) :
    (weights.length = utt.mat.length ∨ weights = []) ∧
      (∀ g, gsel = some g → g.length = utt.mat.length) := by
  unfold resolve at h
  cases hrw : readWeights cfg utt.key utt.mat.length with
  | none => simp [hrw] at h
  | some w =>
    simp only [hrw] at h
    have hwlen : w.length = utt.mat.length ∨ w = [] := by
      unfold readWeights at hrw
      cases hwr : cfg.weights_reader with
      | none =>
        simp only [hwr, Option.some.injEq] at hrw
        exact Or.inr hrw.symm
      | some wr =>
        simp only [hwr] at hrw
        cases hwk : wr utt.key with
        | none => simp [hwk] at hrw
        | some v =>
          simp only [hwk] at hrw
          by_cases hl : v.length = utt.mat.length
          · simp [hl] at hrw
            subst hrw
            exact Or.inl hl
          · simp [hl] at hrw
    cases hgr : cfg.gselect_reader with
    | none =>
      simp only [hgr, Option.some.injEq, Prod.mk.injEq] at h
      obtain ⟨h1, h2⟩ := h
      subst h1; subst h2
      exact ⟨hwlen, by simp⟩
    | some rd =>
      simp only [hgr] at h
      cases hk : rd utt.key with
      | none => simp [hk] at h
      | some g =>
        simp only [hk] at h
        by_cases hl : g.length = utt.mat.length
        · simp [hl] at h
          obtain ⟨h1, h2⟩ := h
          subst h1; subst h2
          exact ⟨hwlen, by simp [hl]⟩
        · simp [hl] at h

/-- One pass of the utterance loop, read through `resolve` and `frameLoops`. -/
theorem processUtt_eq (sm : SoftMax R) (gmm : DiagGmm R) (cfg : Config R)
    (st : DriverState R) (utt : Utterance R) :
    processUtt sm gmm cfg st utt =
      match resolve cfg utt with
      | none => .ok (skipFile st)
      | some (weights, gsel) =>
        match frameLoops sm gmm st.gmm_accs utt.mat weights gsel with
        | .error e => .error e
        | .ok s => .ok (finishFile st s) := by
  unfold processUtt resolve
  cases hrw : readWeights cfg utt.key utt.mat.length with
  | none => rfl
  | some w =>
    cases hgr : cfg.gselect_reader with
    | none => simp [frameLoops, startFile]
    | some rd =>
      cases hk : rd utt.key with
      | none => simp [hk]
      | some g =>
        by_cases hl : g.length = utt.mat.length
        · simp [hk, hl, frameLoops, startFile]
        · simp [hk, hl]

end Loops

/-! ## Skipped utterances and counters -/

section Counters

variable {R : Type} [Zero R] [One R] [Add R] [Mul R] [DecidableEq R]

theorem readWeights_eq_none_iff (cfg : Config R) (utt : Utterance R) :
    readWeights cfg utt.key utt.mat.length = none ↔ weightsViolation cfg utt = true := by
  unfold readWeights weightsViolation
  cases cfg.weights_reader with
  | none => simp
  | some rd =>
    cases hk : rd utt.key with
    | none => simp [hk]
    | some w => by_cases hl : w.length = utt.mat.length <;> simp [hk, hl]

theorem resolve_eq_none_iff (cfg : Config R) (utt : Utterance R) :
    resolve cfg utt = none ↔
      (weightsViolation cfg utt = true ∨ gselectViolation cfg utt = true) := by
  unfold resolve
  cases hrw : readWeights cfg utt.key utt.mat.length with
  | none =>
    have := (readWeights_eq_none_iff cfg utt).mp hrw
    simp [this]
  | some w =>
    have hv : weightsViolation cfg utt = false := by
      cases hb : weightsViolation cfg utt with
      | false => rfl
      | true =>
        have := (readWeights_eq_none_iff cfg utt).mpr hb
        rw [hrw] at this
        cases this
    unfold gselectViolation
    cases cfg.gselect_reader with
    | none => simp [hv]
    | some rd =>
      cases hk : rd utt.key with
      | none => simp [hk]
      | some g => by_cases hl : g.length = utt.mat.length <;> simp [hk, hl, hv]

theorem notSkipped_iff (cfg : Config R) (utt : Utterance R) :
    notSkipped cfg utt = true ↔ ∃ p, resolve cfg utt = some p := by
  have h := resolve_eq_none_iff cfg utt
  unfold notSkipped
  cases hr : resolve cfg utt with
  | none =>
    have := h.mp hr
    rcases this with h1 | h1 <;> simp [h1]
  | some p =>
    have hn : ¬ (weightsViolation cfg utt = true ∨ gselectViolation cfg utt = true) := by
      intro hv
      have := h.mpr hv
      rw [hr] at this
      cases this
    have h1 : weightsViolation cfg utt = false := by
      cases hb : weightsViolation cfg utt with
      | false => rfl
      | true => exact absurd (Or.inl hb) hn
    have h2 : gselectViolation cfg utt = false := by
      cases hb : gselectViolation cfg utt with
      | false => rfl
      | true => exact absurd (Or.inr hb) hn
    simp [h1, h2]

theorem selFrames_all_zero (sm : SoftMax R) (gmm : DiagGmm R) :
    ∀ (l : List (List R × R × List Nat)) (s : FileStats R),
      (∀ t ∈ l, t.2.1 = 0) → selFrames sm gmm l s = .ok s := by
  intro l
  induction l with
  | nil => intro s _; rfl
  | cons t rest ih =>
    intro s h
    obtain ⟨data, weight, sel⟩ := t
    have hz : weight = 0 := h (data, weight, sel) (List.mem_cons_self _ _)
    simp only [selFrames, selFrame, hz, if_true]
    exact ih s (fun t ht => h t (List.mem_cons_of_mem _ ht))

theorem plainFrames_all_zero (sm : SoftMax R) (gmm : DiagGmm R) :
    ∀ (l : List (List R × R)) (s : FileStats R),
      (∀ t ∈ l, t.2 = 0) → plainFrames sm gmm l s = .ok s := by
  intro l
  induction l with
  | nil => intro s _; rfl
  | cons t rest ih =>
    intro s h
    obtain ⟨data, weight⟩ := t
    have hz : weight = 0 := h (data, weight) (List.mem_cons_self _ _)
    simp only [plainFrames, plainFrame, hz, if_true]
    exact ih s (fun t ht => h t (List.mem_cons_of_mem _ ht))

/-- When every frame weight is zero the frame loops return their starting state. -/
theorem frameLoops_all_zero (sm : SoftMax R) (gmm : DiagGmm R) (acc : AccumDiagGmm R)
    (mat : List (List R)) (weights : List R) (gsel : Option (List (List Nat)))
    (hw : weights.length = mat.length ∨ weights = [])
    (hg : ∀ g, gsel = some g → g.length = mat.length)
    (hz : ∀ x ∈ effWeights weights mat.length, x = 0) :
    frameLoops sm gmm acc mat weights gsel
      = .ok { gmm_accs := acc, file_like := 0, file_weight := 0 } := by
  cases gsel with
  | none =>
    rw [frameLoops_none sm gmm acc mat weights hw, plainFrames_all_zero]
    intro t ht
    exact hz _ (List.of_mem_zip ht).2
  | some g =>
    rw [frameLoops_some sm gmm acc mat weights g hw (hg g rfl), selFrames_all_zero]
    intro t ht
    exact hz _ (List.of_mem_zip (List.of_mem_zip ht).2).1

theorem runLoop_counts (sm : SoftMax R) (gmm : DiagGmm R) (cfg : Config R) :
    ∀ (feats : List (Utterance R)) (st st1 : DriverState R),
      runLoop sm gmm cfg feats st = .ok st1 →
        st1.num_done = st.num_done + feats.countP (notSkipped cfg) ∧
        st1.num_err = st.num_err + feats.countP (fun u => !(notSkipped cfg u)) := by
  intro feats
  induction feats with
  | nil =>
    intro st st1 h
    simp only [runLoop, Except.ok.injEq] at h
    subst h
    simp
  | cons utt rest ih =>
    intro st st1 h
    simp only [runLoop] at h
    rw [processUtt_eq] at h
    cases hr : resolve cfg utt with
    | none =>
      have hn : notSkipped cfg utt = false := by
        cases hb : notSkipped cfg utt with
        | false => rfl
        | true =>
          obtain ⟨p, hp⟩ := (notSkipped_iff cfg utt).mp hb
          rw [hr] at hp
          cases hp
      simp only [hr] at h
      obtain ⟨h1, h2⟩ := ih _ _ h
      simp only [skipFile] at h1 h2
      simp only [List.countP_cons, hn, Bool.not_false, if_true, Bool.false_eq_true, if_false]
      omega
    | some p =>
      have hn : notSkipped cfg utt = true := (notSkipped_iff cfg utt).mpr ⟨p, hr⟩
      obtain ⟨w, g⟩ := p
      simp only [hr] at h
      cases hf : frameLoops sm gmm st.gmm_accs utt.mat w g with
      | error e => simp [hf] at h
      | ok s =>
        simp only [hf] at h
        obtain ⟨h1, h2⟩ := ih _ _ h
        simp only [finishFile] at h1 h2
        simp only [List.countP_cons, hn, Bool.not_true, if_true, Bool.false_eq_true, if_false]
        omega

theorem runLoop_all_skipped (sm : SoftMax R) (gmm : DiagGmm R) (cfg : Config R) :
    ∀ (feats : List (Utterance R)) (st : DriverState R),
      (∀ u ∈ feats, notSkipped cfg u = false) →
        runLoop sm gmm cfg feats st
          = .ok { gmm_accs := st.gmm_accs, tot_like := st.tot_like,
                  tot_weight := st.tot_weight, num_done := st.num_done,
                  num_err := st.num_err + feats.length } := by
  intro feats
  induction feats with
  | nil => intro st _; rfl
  | cons utt rest ih =>
    intro st h
    have hn : notSkipped cfg utt = false := h utt (List.mem_cons_self _ _)
    have hr : resolve cfg utt = none := by
      cases hr : resolve cfg utt with
      | none => rfl
      | some p =>
        have := (notSkipped_iff cfg utt).mpr ⟨p, hr⟩
        rw [hn] at this
        cases this
    simp only [runLoop]
    rw [processUtt_eq]
    simp only [hr]
    rw [ih (skipFile st) (fun u hu => h u (List.mem_cons_of_mem _ hu))]
    simp only [skipFile, List.length_cons]
    congr 2
    omega

end Counters

/-! ## Aborting and bounds -/

section Abort

variable {R : Type} [Zero R] [One R] [Add R] [Mul R] [DecidableEq R]

theorem any_zip_snd {α β : Type} (f : β → Bool) :
    ∀ (a : List α) (b : List β), a.length = b.length →
      (a.zip b).any (fun t => f t.2) = b.any f := by
  intro a
  induction a with
  | nil =>
    intro b h
    cases b with
    | nil => rfl
    | cons y ys => simp at h
  | cons x xs ih =>
    intro b h
    cases b with
    | nil => simp at h
    | cons y ys =>
      simp only [List.length_cons, Nat.add_right_cancel_iff] at h
      simp only [List.zip_cons_cons, List.any_cons, ih ys h]

theorem any_zip_fst_mid {α β γ : Type} (f : α → β → Bool) :
    ∀ (a : List α) (b : List β) (c : List γ), b.length = a.length → c.length = a.length →
      (a.zip (b.zip c)).any (fun t => f t.1 t.2.1) = (a.zip b).any (fun p => f p.1 p.2) := by
  intro a
  induction a with
  | nil => intro b c _ _; rfl
  | cons x xs ih =>
    intro b c hb hc
    cases b with
    | nil => simp at hb
    | cons y ys =>
      cases c with
      | nil => simp at hc
      | cons z zs =>
        simp only [List.length_cons, Nat.add_right_cancel_iff] at hb hc
        simp only [List.zip_cons_cons, List.any_cons, ih ys zs hb hc]

/-- The gselect frame loop stops exactly on a frame of non-zero weight that has an empty
candidate list (failed assertion) or the wrong dimension (failed scorer). -/
theorem selFrames_outcome (sm : SoftMax R) (gmm : DiagGmm R) :
    ∀ (l : List (List R × R × List Nat)) (s : FileStats R),
      (l.any (fun t => decide (t.2.1 ≠ 0) && t.2.2.isEmpty) = false →
        l.any (fun t => decide (t.2.1 ≠ 0) && decide (t.1.length ≠ gmm.Dim)) = false →
          ∃ s1, selFrames sm gmm l s = .ok s1) ∧
      ((l.any (fun t => decide (t.2.1 ≠ 0) && t.2.2.isEmpty) = true ∨
        l.any (fun t => decide (t.2.1 ≠ 0) && decide (t.1.length ≠ gmm.Dim)) = true) →
          selFrames sm gmm l s = .error .assertFailed ∨
            selFrames sm gmm l s = .error .dimMismatch) ∧
      (l.any (fun t => decide (t.2.1 ≠ 0) && decide (t.1.length ≠ gmm.Dim)) = false →
        l.any (fun t => decide (t.2.1 ≠ 0) && t.2.2.isEmpty) = true →
          selFrames sm gmm l s = .error .assertFailed) := by
  intro l
  induction l with
  | nil =>
    intro s
    refine ⟨fun _ _ => ⟨s, rfl⟩, ?_, ?_⟩
    · intro h; simp at h
    · intro _ h; simp at h
  | cons t rest ih =>
    intro s
    obtain ⟨data, weight, sel⟩ := t
    by_cases hz : weight = 0
    · have hstep : selFrames sm gmm ((data, weight, sel) :: rest) s
          = selFrames sm gmm rest s := by
        simp only [selFrames, selFrame, hz, if_true]
      rw [hstep]
      simpa [hz] using ih s
    · by_cases he : sel.length = 0
      · have hnil : sel = [] := List.length_eq_zero.mp he
        have hstep : selFrames sm gmm ((data, weight, sel) :: rest) s
            = .error .assertFailed := by
          simp only [selFrames, selFrame, hz, he, if_true, if_false]
        rw [hstep]
        refine ⟨?_, fun _ => Or.inl rfl, fun _ _ => rfl⟩
        intro h
        simp [hz, hnil] at h
      · have hemp : sel.isEmpty = false := by
          cases sel with
          | nil => exact absurd rfl he
          | cons a as => rfl
        by_cases hd : data.length = gmm.Dim
        · have hstep : ∃ s1, selFrames sm gmm ((data, weight, sel) :: rest) s
              = selFrames sm gmm rest s1 := by
            simp only [selFrames, selFrame, hz, he, hd, ne_eq, not_true_eq_false, if_false]
            exact ⟨_, rfl⟩
          obtain ⟨s1, hs1⟩ := hstep
          rw [hs1]
          simpa [hz, hemp, hd] using ih s1
        · have hstep : selFrames sm gmm ((data, weight, sel) :: rest) s
              = .error .dimMismatch := by
            simp only [selFrames, selFrame, hz, he, hd, ne_eq, not_false_eq_true, if_true,
              if_false]
          rw [hstep]
          refine ⟨?_, fun _ => Or.inr rfl, ?_⟩
          · intro _ h
            simp [hz, hd] at h
          · intro h
            simp [hz, hd] at h

/-- The frame loop without selection stops exactly on a frame of non-zero weight that
has the wrong dimension. -/
theorem plainFrames_outcome (sm : SoftMax R) (gmm : DiagGmm R) :
    ∀ (l : List (List R × R)) (s : FileStats R),
      (l.any (fun p => decide (p.2 ≠ 0) && decide (p.1.length ≠ gmm.Dim)) = false →
          ∃ s1, plainFrames sm gmm l s = .ok s1) ∧
      (l.any (fun p => decide (p.2 ≠ 0) && decide (p.1.length ≠ gmm.Dim)) = true →
          plainFrames sm gmm l s = .error .dimMismatch) := by
  intro l
  induction l with
  | nil =>
    intro s
    refine ⟨fun _ => ⟨s, rfl⟩, ?_⟩
    intro h; simp at h
  | cons t rest ih =>
    intro s
    obtain ⟨data, weight⟩ := t
    by_cases hz : weight = 0
    · have hstep : plainFrames sm gmm ((data, weight) :: rest) s
          = plainFrames sm gmm rest s := by
        simp only [plainFrames, plainFrame, hz, if_true]
      rw [hstep]
      simpa [hz] using ih s
    · by_cases hd : data.length = gmm.Dim
      · have hstep : ∃ s1, plainFrames sm gmm ((data, weight) :: rest) s
            = plainFrames sm gmm rest s1 := by
          simp only [plainFrames, plainFrame, hz, hd, ne_eq, not_true_eq_false, if_false]
          exact ⟨_, rfl⟩
        obtain ⟨s1, hs1⟩ := hstep
        rw [hs1]
        simpa [hz, hd] using ih s1
      · have hstep : plainFrames sm gmm ((data, weight) :: rest) s
            = .error .dimMismatch := by
          simp only [plainFrames, plainFrame, hz, hd, ne_eq, not_false_eq_true, if_true,
            if_false]
        rw [hstep]
        refine ⟨?_, fun _ => rfl⟩
        intro h
        simp [hz, hd] at h

/-- The frame loops of a resolved utterance with a selection: they run to the end when
no frame of non-zero weight has an empty candidate list or the wrong dimension, and
stop with the failed assertion or the failed scorer otherwise. -/
theorem frameLoops_outcome (sm : SoftMax R) (gmm : DiagGmm R) (acc : AccumDiagGmm R)
    (mat : List (List R)) (weights : List R) (g : List (List Nat))
    (hw : weights.length = mat.length ∨ weights = []) (hg : g.length = mat.length) :
    (emptyCandidates weights mat.length g = false → wrongDimension gmm mat weights = false →
        ∃ s1, frameLoops sm gmm acc mat weights (some g) = .ok s1) ∧
    ((emptyCandidates weights mat.length g = true ∨ wrongDimension gmm mat weights = true) →
        frameLoops sm gmm acc mat weights (some g) = .error .assertFailed ∨
          frameLoops sm gmm acc mat weights (some g) = .error .dimMismatch) ∧
    (wrongDimension gmm mat weights = false → emptyCandidates weights mat.length g = true →
        frameLoops sm gmm acc mat weights (some g) = .error .assertFailed) := by
  have hel := effWeights_length weights mat.length hw
  have hlen : mat.length = ((effWeights weights mat.length).zip g).length := by
    simp [hel, hg]
  have hany := any_zip_snd (fun p : R × List Nat => decide (p.1 ≠ 0) && p.2.isEmpty)
    mat ((effWeights weights mat.length).zip g) hlen
  have hdim := any_zip_fst_mid
    (fun (d : List R) (w : R) => decide (w ≠ 0) && decide (d.length ≠ gmm.Dim))
    mat (effWeights weights mat.length) g hel hg
  rw [frameLoops_some sm gmm acc mat weights g hw hg]
  unfold emptyCandidates wrongDimension
  rw [← hany, ← hdim]
  exact selFrames_outcome sm gmm _ _

/-- The frame loops of a resolved utterance without selection: they run to the end
unless a frame of non-zero weight has the wrong dimension. -/
theorem frameLoops_outcome_none (sm : SoftMax R) (gmm : DiagGmm R) (acc : AccumDiagGmm R)
    (mat : List (List R)) (weights : List R)
    (hw : weights.length = mat.length ∨ weights = []) :
    (wrongDimension gmm mat weights = false →
        ∃ s1, frameLoops sm gmm acc mat weights none = .ok s1) ∧
    (wrongDimension gmm mat weights = true →
        frameLoops sm gmm acc mat weights none = .error .dimMismatch) := by
  rw [frameLoops_none sm gmm acc mat weights hw]
  unfold wrongDimension
  exact plainFrames_outcome sm gmm _ _

/-- What resolution returns comes from the tables of this utterance. -/
theorem resolve_sources (cfg : Config R) (utt : Utterance R) (weights : List R)
    (gsel : Option (List (List Nat))) (h : resolve cfg utt = some (weights, gsel)) :
    ((cfg.weights_reader = none ∧ weights = []) ∨
      (∃ rd, cfg.weights_reader = some rd ∧ rd utt.key = some weights ∧
        weights.length = utt.mat.length)) ∧
    ((cfg.gselect_reader = none ∧ gsel = none) ∨
      (∃ rd g, cfg.gselect_reader = some rd ∧ rd utt.key = some g ∧ gsel = some g ∧
        g.length = utt.mat.length)) := by
  unfold resolve at h
  cases hrw : readWeights cfg utt.key utt.mat.length with
  | none => simp [hrw] at h
  | some w =>
    simp only [hrw] at h
    have hwsrc : (cfg.weights_reader = none ∧ w = []) ∨
        (∃ rd, cfg.weights_reader = some rd ∧ rd utt.key = some w ∧
          w.length = utt.mat.length) := by
      unfold readWeights at hrw
      cases hwr : cfg.weights_reader with
      | none =>
        simp only [hwr, Option.some.injEq] at hrw
        exact Or.inl ⟨rfl, hrw.symm⟩
      | some wr =>
        simp only [hwr] at hrw
        cases hwk : wr utt.key with
        | none => simp [hwk] at hrw
        | some v =>
          simp only [hwk] at hrw
          by_cases hl : v.length = utt.mat.length
          · simp [hl] at hrw
            subst hrw
            exact Or.inr ⟨wr, rfl, hwk, hl⟩
          · simp [hl] at hrw
    cases hgr : cfg.gselect_reader with
    | none =>
      simp only [hgr, Option.some.injEq, Prod.mk.injEq] at h
      obtain ⟨h1, h2⟩ := h
      subst h1; subst h2
      exact ⟨hwsrc, Or.inl ⟨rfl, rfl⟩⟩
    | some rd =>
      simp only [hgr] at h
      cases hk : rd utt.key with
      | none => simp [hk] at h
      | some g =>
        simp only [hk] at h
        by_cases hl : g.length = utt.mat.length
        · simp [hl] at h
          obtain ⟨h1, h2⟩ := h
          subst h1; subst h2
          exact ⟨hwsrc, Or.inr ⟨rd, g, rfl, hk, rfl, hl⟩⟩
        · simp [hl] at h

end Abort

/-! ## Frames of weight zero -/

section ZeroWeight

variable {R : Type} [Zero R] [One R] [Add R] [Mul R] [DecidableEq R]

theorem keepWhere_nil {α : Type} (m : List Bool) : keepWhere m ([] : List α) = [] := by
  cases m <;> rfl

theorem keepWhere_length_eq {α β : Type} :
    ∀ (m : List Bool) (xs : List α) (ys : List β), xs.length = ys.length →
      (keepWhere m xs).length = (keepWhere m ys).length := by
  intro m
  induction m with
  | nil => intro xs ys _; rfl
  | cons b bs ih =>
    intro xs ys h
    cases xs with
    | nil =>
      cases ys with
      | nil => rfl
      | cons y ys => simp at h
    | cons x xs =>
      cases ys with
      | nil => simp at h
      | cons y ys =>
        simp only [List.length_cons, Nat.add_right_cancel_iff] at h
        cases b with
        | true => simp [keepWhere, ih xs ys h]
        | false => simp [keepWhere, ih xs ys h]

theorem keepWhere_all_true {α : Type} :
    ∀ (n : Nat) (xs : List α), xs.length = n →
      keepWhere (List.replicate n true) xs = xs := by
  intro n
  induction n with
  | zero =>
    intro xs h
    have : xs = [] := List.length_eq_zero.mp h
    subst this
    rfl
  | succ n ih =>
    intro xs h
    cases xs with
    | nil => simp at h
    | cons x xs =>
      simp only [List.length_cons, Nat.add_right_cancel_iff] at h
      simp [List.replicate_succ, keepWhere, ih xs h]

theorem keepWhere_all_false {α : Type} :
    ∀ (n : Nat) (xs : List α), keepWhere (List.replicate n false) xs = [] := by
  intro n
  induction n with
  | zero => intro xs; rfl
  | succ n ih =>
    intro xs
    cases xs with
    | nil => rfl
    | cons x xs => simp [List.replicate_succ, keepWhere, ih xs]

/-- Removing the frames of weight zero commutes with taking the frame weights. -/
theorem effWeights_dropZero (weights : List R) (mat : List (List R))
    (hw : weights.length = mat.length ∨ weights = []) :
    effWeights (dropZeroWeights weights mat.length) (dropZeroFrames weights mat).length
      = keepWhere (nonZeroMask weights mat.length) (effWeights weights mat.length) := by
  by_cases h0 : weights.length = 0
  · have hnil : weights = [] := List.length_eq_zero.mp h0
    subst hnil
    have hew : effWeights ([] : List R) mat.length = List.replicate mat.length 1 := by
      simp [effWeights]
    have hmask : nonZeroMask ([] : List R) mat.length
        = List.replicate mat.length (decide ((1 : R) ≠ 0)) := by
      simp [nonZeroMask, hew]
    simp only [dropZeroWeights, dropZeroFrames, hmask, hew, keepWhere_nil]
    by_cases h1 : (1 : R) = 0
    · simp [h1, keepWhere_all_false, effWeights]
    · simp [h1, keepWhere_all_true, effWeights]
  · have hlen : weights.length = mat.length := by
      rcases hw with h | h
      · exact h
      · subst h; simp at h0
    have hew : effWeights weights mat.length = weights := by
      simp [effWeights, h0]
    rw [hew]
    unfold effWeights
    by_cases h1 : (dropZeroWeights weights mat.length).length = 0
    · have hnil : dropZeroWeights weights mat.length = [] := List.length_eq_zero.mp h1
      have hm : (dropZeroFrames weights mat).length = 0 := by
        have := keepWhere_length_eq (nonZeroMask weights mat.length) mat weights hlen.symm
        unfold dropZeroWeights at h1
        unfold dropZeroFrames
        omega
      unfold dropZeroWeights at hnil
      simp [h1, hm, hnil]
    · rw [if_pos h1]
      rfl

theorem selFrames_dropZero (sm : SoftMax R) (gmm : DiagGmm R) :
    ∀ (ew : List R) (mat : List (List R)) (g : List (List Nat)) (s : FileStats R),
      mat.length = ew.length → g.length = ew.length →
        selFrames sm gmm
            ((keepWhere (ew.map (fun w => decide (w ≠ 0))) mat).zip
              ((keepWhere (ew.map (fun w => decide (w ≠ 0))) ew).zip
                (keepWhere (ew.map (fun w => decide (w ≠ 0))) g))) s
          = selFrames sm gmm (mat.zip (ew.zip g)) s := by
  intro ew
  induction ew with
  | nil =>
    intro mat g s hm _
    have : mat = [] := List.length_eq_zero.mp hm
    subst this
    rfl
  | cons w ws ih =>
    intro mat g s hm hg
    cases mat with
    | nil => simp at hm
    | cons d ds =>
      cases g with
      | nil => simp at hg
      | cons c cs =>
        simp only [List.length_cons, Nat.add_right_cancel_iff] at hm hg
        by_cases hz : w = 0
        · simp only [List.map_cons, keepWhere, hz, ne_eq, not_true_eq_false, decide_False,
            Bool.false_eq_true, if_false, List.zip_cons_cons, selFrames, selFrame, if_true]
          exact ih ds cs s hm hg
        · simp only [List.map_cons, keepWhere, hz, ne_eq, not_false_eq_true, decide_True,
            if_true, List.zip_cons_cons, selFrames]
          cases selFrame sm gmm s d w c with
          | error e => rfl
          | ok s1 => exact ih ds cs s1 hm hg

theorem plainFrames_dropZero (sm : SoftMax R) (gmm : DiagGmm R) :
    ∀ (ew : List R) (mat : List (List R)) (s : FileStats R),
      mat.length = ew.length →
        plainFrames sm gmm
            ((keepWhere (ew.map (fun w => decide (w ≠ 0))) mat).zip
              (keepWhere (ew.map (fun w => decide (w ≠ 0))) ew)) s
          = plainFrames sm gmm (mat.zip ew) s := by
  intro ew
  induction ew with
  | nil =>
    intro mat s hm
    have : mat = [] := List.length_eq_zero.mp hm
    subst this
    rfl
  | cons w ws ih =>
    intro mat s hm
    cases mat with
    | nil => simp at hm
    | cons d ds =>
      simp only [List.length_cons, Nat.add_right_cancel_iff] at hm
      by_cases hz : w = 0
      · simp only [List.map_cons, keepWhere, hz, ne_eq, not_true_eq_false, decide_False,
          Bool.false_eq_true, if_false, List.zip_cons_cons, plainFrames, plainFrame, if_true]
        exact ih ds s hm
      · simp only [List.map_cons, keepWhere, hz, ne_eq, not_false_eq_true, decide_True,
          if_true, List.zip_cons_cons, plainFrames]
        cases plainFrame sm gmm s d w with
        | error e => rfl
        | ok s1 => exact ih ds s1 hm

/-- The reduced entries have the length of the reduced frame list. -/
theorem dropZero_lengths (weights : List R) (mat : List (List R))
    (gsel : Option (List (List Nat)))
    (hw : weights.length = mat.length ∨ weights = [])
    (hg : ∀ g, gsel = some g → g.length = mat.length) :
    ((dropZeroWeights weights mat.length).length = (dropZeroFrames weights mat).length ∨
        dropZeroWeights weights mat.length = []) ∧
      (∀ g, gsel = some g →
        (dropZeroGselect weights mat.length g).length
          = (dropZeroFrames weights mat).length) := by
  refine ⟨?_, ?_⟩
  · rcases hw with h | h
    · exact Or.inl (keepWhere_length_eq _ _ _ h)
    · subst h
      exact Or.inr (keepWhere_nil _)
  · intro g hgs
    exact keepWhere_length_eq _ _ _ (hg g hgs)

/-- The frame loops do not see the frames of weight zero. -/
theorem frameLoops_dropZero (sm : SoftMax R) (gmm : DiagGmm R) (acc : AccumDiagGmm R)
    (mat : List (List R)) (weights : List R) (gsel : Option (List (List Nat)))
    (hw : weights.length = mat.length ∨ weights = [])
    (hg : ∀ g, gsel = some g → g.length = mat.length) :
    frameLoops sm gmm acc (dropZeroFrames weights mat) (dropZeroWeights weights mat.length)
        (gsel.map (dropZeroGselect weights mat.length))
      = frameLoops sm gmm acc mat weights gsel := by
  have hl := dropZero_lengths weights mat gsel hw hg
  have hel := effWeights_length weights mat.length hw
  cases gsel with
  | none =>
    simp only [Option.map_none']
    rw [frameLoops_none sm gmm acc _ _ hl.1, frameLoops_none sm gmm acc mat weights hw,
      effWeights_dropZero weights mat hw]
    have := plainFrames_dropZero sm gmm (effWeights weights mat.length) mat
      { gmm_accs := acc, file_like := 0, file_weight := 0 } hel.symm
    simp only [dropZeroFrames, nonZeroMask]
    rw [this]
  | some g =>
    simp only [Option.map_some']
    rw [frameLoops_some sm gmm acc _ _ _ hl.1 (hl.2 g rfl),
      frameLoops_some sm gmm acc mat weights g hw (hg g rfl),
      effWeights_dropZero weights mat hw]
    have := selFrames_dropZero sm gmm (effWeights weights mat.length) mat g
      { gmm_accs := acc, file_like := 0, file_weight := 0 } hel.symm
      (by rw [hel]; exact hg g rfl)
    simp only [dropZeroFrames, dropZeroGselect, nonZeroMask]
    rw [this]

end ZeroWeight

/-! ## Utterance totals -/

section Totals

variable {R : Type} [Semiring R] [DecidableEq R]

theorem map_zip_mid {α β γ : Type} :
    ∀ (b : List β) (a : List α) (c : List γ), a.length = b.length → c.length = b.length →
      (a.zip (b.zip c)).map (fun t => t.2.1) = b := by
  intro b
  induction b with
  | nil =>
    intro a c ha _
    have : a = [] := List.length_eq_zero.mp ha
    subst this
    rfl
  | cons y ys ih =>
    intro a c ha hc
    cases a with
    | nil => simp at ha
    | cons x xs =>
      cases c with
      | nil => simp at hc
      | cons z zs =>
        simp only [List.length_cons, Nat.add_right_cancel_iff] at ha hc
        simp only [List.zip_cons_cons, List.map_cons, ih xs zs ha hc]

theorem map_zip_right {α β : Type} :
    ∀ (b : List β) (a : List α), a.length = b.length →
      (a.zip b).map (fun t => t.2) = b := by
  intro b
  induction b with
  | nil =>
    intro a ha
    have : a = [] := List.length_eq_zero.mp ha
    subst this
    rfl
  | cons y ys ih =>
    intro a ha
    cases a with
    | nil => simp at ha
    | cons x xs =>
      simp only [List.length_cons, Nat.add_right_cancel_iff] at ha
      simp only [List.zip_cons_cons, List.map_cons, ih xs ha]

theorem sum_replicate_one (n : Nat) : (List.replicate n (1 : R)).sum = (n : R) := by
  induction n with
  | zero => simp
  | succ n ih => simp [List.replicate_succ, ih, add_comm]

theorem selFrames_totals (sm : SoftMax R) (gmm : DiagGmm R) :
    ∀ (l : List (List R × R × List Nat)) (s s1 : FileStats R),
      selFrames sm gmm l s = .ok s1 →
        s1.file_weight = s.file_weight + (l.map (fun t => t.2.1)).sum ∧
        s1.file_like = s.file_like
          + (l.map (fun t => t.2.1 * frameLogLike sm gmm t.1 (some t.2.2))).sum ∧
        s1.gmm_accs = (l.filter (fun t => decide (t.2.1 ≠ 0))).foldl
          (fun a t => frameUpdate sm gmm a t.1 t.2.1 (some t.2.2)) s.gmm_accs := by
  intro l
  induction l with
  | nil =>
    intro s s1 h
    simp only [selFrames, Except.ok.injEq] at h
    subst h
    simp
  | cons t rest ih =>
    intro s s1 h
    obtain ⟨data, weight, sel⟩ := t
    simp only [selFrames] at h
    by_cases hz : weight = 0
    · simp only [selFrame, hz, if_true] at h
      obtain ⟨h1, h2, h3⟩ := ih s s1 h
      simp [h1, h2, h3, hz]
    · by_cases he : sel.length = 0
      · simp [selFrame, hz, he] at h
      · by_cases hd : data.length = gmm.Dim
        · simp only [selFrame, hz, he, hd, ne_eq, not_true_eq_false, if_false] at h
          obtain ⟨h1, h2, h3⟩ := ih _ s1 h
          refine ⟨?_, ?_, ?_⟩
          · simp only [h1, List.map_cons, List.sum_cons, add_assoc]
          · simp only [h2, List.map_cons, List.sum_cons, frameLogLike, add_assoc]
          · simp [h3, hz, frameUpdate]
        · simp [selFrame, hz, he, hd] at h

theorem plainFrames_totals (sm : SoftMax R) (gmm : DiagGmm R) :
    ∀ (l : List (List R × R)) (s s1 : FileStats R),
      plainFrames sm gmm l s = .ok s1 →
        s1.file_weight = s.file_weight + (l.map (fun t => t.2)).sum ∧
        s1.file_like = s.file_like
          + (l.map (fun t => t.2 * frameLogLike sm gmm t.1 none)).sum ∧
        s1.gmm_accs = (l.filter (fun t => decide (t.2 ≠ 0))).foldl
          (fun a t => frameUpdate sm gmm a t.1 t.2 none) s.gmm_accs := by
  intro l
  induction l with
  | nil =>
    intro s s1 h
    simp only [plainFrames, Except.ok.injEq] at h
    subst h
    simp
  | cons t rest ih =>
    intro s s1 h
    obtain ⟨data, weight⟩ := t
    simp only [plainFrames] at h
    by_cases hz : weight = 0
    · simp only [plainFrame, hz, if_true] at h
      obtain ⟨h1, h2, h3⟩ := ih s s1 h
      simp [h1, h2, h3, hz]
    · by_cases hd : data.length = gmm.Dim
      · simp only [plainFrame, hz, hd, ne_eq, not_true_eq_false, if_false] at h
        obtain ⟨h1, h2, h3⟩ := ih _ s1 h
        refine ⟨?_, ?_, ?_⟩
        · simp only [h1, List.map_cons, List.sum_cons, add_assoc]
        · simp only [h2, List.map_cons, List.sum_cons, frameLogLike, add_assoc]
        · simp [h3, hz, frameUpdate]
      · simp [plainFrame, hz, hd] at h

/-- The totals and the accumulator after the frame loops of a resolved utterance. -/
theorem frameLoops_totals (sm : SoftMax R) (gmm : DiagGmm R) (acc : AccumDiagGmm R)
    (mat : List (List R)) (weights : List R) (gsel : Option (List (List Nat)))
    (hw : weights.length = mat.length ∨ weights = [])
    (hg : ∀ g, gsel = some g → g.length = mat.length) (s : FileStats R)
    (hs : frameLoops sm gmm acc mat weights gsel = .ok s) :
    s.file_weight = (effWeights weights mat.length).sum ∧
      s.file_like = weightedLogLike sm gmm mat weights gsel ∧
      s.gmm_accs = updatedAccs sm gmm acc mat weights gsel := by
  have hel := effWeights_length weights mat.length hw
  cases gsel with
  | none =>
    rw [frameLoops_none sm gmm acc mat weights hw] at hs
    obtain ⟨h1, h2, h3⟩ := plainFrames_totals sm gmm _ _ _ hs
    rw [map_zip_right _ _ hel.symm] at h1
    simp only [zero_add] at h1 h2
    exact ⟨h1, h2, h3⟩
  | some g =>
    have hgl := hg g rfl
    rw [frameLoops_some sm gmm acc mat weights g hw hgl] at hs
    obtain ⟨h1, h2, h3⟩ := selFrames_totals sm gmm _ _ _ hs
    rw [map_zip_mid _ _ _ hel.symm (by rw [hel]; exact hgl)] at h1
    simp only [zero_add] at h1 h2
    exact ⟨h1, h2, h3⟩

end Totals

/-! ## Occupancy -/

section Occupancy

variable {R : Type} [CommSemiring R] [DecidableEq R]

theorem entryAt_eq_getElem? : ∀ (l : List R) (c : Nat), c < l.length →
    l[c]? = some (entryAt l c) := by
  intro l
  induction l with
  | nil => intro c h; simp at h
  | cons a as ih =>
    intro c h
    cases c with
    | zero => simp [entryAt]
    | succ c =>
      simp only [List.length_cons, Nat.add_lt_add_iff_right] at h
      simpa [entryAt] using ih c h

theorem updateAt_length {α : Type} (f : α → α) : ∀ (l : List α) (c : Nat),
    (updateAt f l c).length = l.length := by
  intro l
  induction l with
  | nil => intro c; rfl
  | cons a as ih =>
    intro c
    cases c with
    | zero => rfl
    | succ c => simp [updateAt, ih c]

theorem entryAt_updateAt (w : R) : ∀ (l : List R) (c k : Nat), k < l.length →
    entryAt (updateAt (fun o => o + w) l c) k
      = entryAt l k + (if c = k then w else 0) := by
  intro l
  induction l with
  | nil => intro c k h; simp at h
  | cons a as ih =>
    intro c k h
    cases c with
    | zero =>
      cases k with
      | zero => simp [updateAt, entryAt]
      | succ k => simp [updateAt, entryAt]
    | succ c =>
      cases k with
      | zero => simp [updateAt, entryAt]
      | succ k =>
        simp only [List.length_cons, Nat.add_lt_add_iff_right] at h
        simp [updateAt, entryAt, ih c k h]

theorem AccumulateForComponent_occupancy (acc : AccumDiagGmm R) (data : List R)
    (c : Nat) (p : R) (k : Nat) (hk : k < acc.occupancy.length) :
    (AccumulateForComponent acc data c p).occupancy.length = acc.occupancy.length ∧
      entryAt (AccumulateForComponent acc data c p).occupancy k
        = entryAt acc.occupancy k + (if c = k then p else 0) := by
  unfold AccumulateForComponent
  by_cases hp : p = 0
  · simp [hp]
  · simp only [hp, if_false]
    exact ⟨updateAt_length _ _ _, entryAt_updateAt p _ c k hk⟩

theorem accumulatePairs_occupancy (data : List R) (k : Nat) :
    ∀ (pairs : List (Nat × R)) (acc : AccumDiagGmm R), k < acc.occupancy.length →
      (accumulatePairs acc data pairs).occupancy.length = acc.occupancy.length ∧
        entryAt (accumulatePairs acc data pairs).occupancy k
          = entryAt acc.occupancy k
            + (pairs.map (fun p => if p.1 = k then p.2 else 0)).sum := by
  intro pairs
  induction pairs with
  | nil => intro acc _; simp [accumulatePairs]
  | cons q rest ih =>
    intro acc hk
    obtain ⟨c, p⟩ := q
    obtain ⟨h1, h2⟩ := AccumulateForComponent_occupancy acc data c p k hk
    obtain ⟨h3, h4⟩ := ih (AccumulateForComponent acc data c p) (by rw [h1]; exact hk)
    simp only [accumulatePairs]
    refine ⟨by rw [h3, h1], ?_⟩
    rw [h4, h2]
    simp only [List.map_cons, List.sum_cons, add_assoc]

theorem posteriorFor_scale (w : R) (k : Nat) : ∀ (sel : List Nat) (post : List R),
    ((sel.zip (Scale post w)).map (fun p => if p.1 = k then p.2 else 0)).sum
      = w * posteriorFor sel post k := by
  intro sel
  induction sel with
  | nil => intro post; simp [posteriorFor]
  | cons a as ih =>
    intro post
    cases post with
    | nil => simp [posteriorFor, Scale]
    | cons b bs =>
      have h := ih bs
      simp only [posteriorFor, Scale] at h
      simp only [posteriorFor, Scale, List.map_cons, List.zip_cons_cons, List.sum_cons, h,
        mul_add]
      by_cases hk : a = k
      · simp [hk, mul_comm]
      · simp [hk]

theorem selFrames_occupancy (sm : SoftMax R) (gmm : DiagGmm R) (k : Nat) :
    ∀ (l : List (List R × R × List Nat)) (s s1 : FileStats R),
      selFrames sm gmm l s = .ok s1 → k < s.gmm_accs.occupancy.length →
        s1.gmm_accs.occupancy.length = s.gmm_accs.occupancy.length ∧
        entryAt s1.gmm_accs.occupancy k
          = entryAt s.gmm_accs.occupancy k
            + ((l.filter (fun t => decide (t.2.1 ≠ 0))).map
                (fun t => t.2.1 * framePosterior sm gmm t.1 (some t.2.2) k)).sum := by
  intro l
  induction l with
  | nil =>
    intro s s1 h _
    simp only [selFrames, Except.ok.injEq] at h
    subst h
    simp
  | cons t rest ih =>
    intro s s1 h hk
    obtain ⟨data, weight, sel⟩ := t
    simp only [selFrames] at h
    by_cases hz : weight = 0
    · simp only [selFrame, hz, if_true] at h
      obtain ⟨h1, h2⟩ := ih s s1 h hk
      simp [h1, h2, hz]
    · by_cases he : sel.length = 0
      · simp [selFrame, hz, he] at h
      · by_cases hd : data.length = gmm.Dim
        · simp only [selFrame, hz, he, hd, ne_eq, not_true_eq_false, if_false] at h
          obtain ⟨h3, h4⟩ := accumulatePairs_occupancy data k
            (sel.zip (Scale (ApplySoftMax sm (scoreComponents gmm data sel)).2 weight))
            s.gmm_accs hk
          obtain ⟨h1, h2⟩ := ih _ s1 h (by simp only [h3]; exact hk)
          refine ⟨by rw [h1, h3], ?_⟩
          rw [h2, h4, posteriorFor_scale]
          simp [hz, framePosterior, add_assoc]
        · simp [selFrame, hz, he, hd] at h

theorem plainFrames_occupancy (sm : SoftMax R) (gmm : DiagGmm R) (k : Nat) :
    ∀ (l : List (List R × R)) (s s1 : FileStats R),
      plainFrames sm gmm l s = .ok s1 → k < s.gmm_accs.occupancy.length →
        s1.gmm_accs.occupancy.length = s.gmm_accs.occupancy.length ∧
        entryAt s1.gmm_accs.occupancy k
          = entryAt s.gmm_accs.occupancy k
            + ((l.filter (fun t => decide (t.2 ≠ 0))).map
                (fun t => t.2 * framePosterior sm gmm t.1 none k)).sum := by
  intro l
  induction l with
  | nil =>
    intro s s1 h _
    simp only [plainFrames, Except.ok.injEq] at h
    subst h
    simp
  | cons t rest ih =>
    intro s s1 h hk
    obtain ⟨data, weight⟩ := t
    simp only [plainFrames] at h
    by_cases hz : weight = 0
    · simp only [plainFrame, hz, if_true] at h
      obtain ⟨h1, h2⟩ := ih s s1 h hk
      simp [h1, h2, hz]
    · by_cases hd : data.length = gmm.Dim
      · simp only [plainFrame, hz, hd, ne_eq, not_true_eq_false, if_false] at h
        obtain ⟨h3, h4⟩ := accumulatePairs_occupancy data k
          ((List.range gmm.NumGauss).zip
            (Scale (ApplySoftMax sm
              (scoreComponents gmm data (List.range gmm.NumGauss))).2 weight))
          s.gmm_accs hk
        obtain ⟨h1, h2⟩ := ih _ s1 h (by simp only [h3]; exact hk)
        refine ⟨by rw [h1, h3], ?_⟩
        rw [h2, h4, posteriorFor_scale]
        simp [hz, framePosterior, add_assoc]
      · simp [plainFrame, hz, hd] at h

/-- The occupancy after the frame loops of one resolved utterance. -/
theorem frameLoops_occupancy (sm : SoftMax R) (gmm : DiagGmm R) (acc : AccumDiagGmm R)
    (mat : List (List R)) (weights : List R) (gsel : Option (List (List Nat)))
    (hw : weights.length = mat.length ∨ weights = [])
    (hg : ∀ g, gsel = some g → g.length = mat.length) (k : Nat)
    (hk : k < acc.occupancy.length) (s : FileStats R)
    (hs : frameLoops sm gmm acc mat weights gsel = .ok s) :
    s.gmm_accs.occupancy.length = acc.occupancy.length ∧
      entryAt s.gmm_accs.occupancy k
        = entryAt acc.occupancy k + utteranceOccupancy sm gmm mat weights gsel k := by
  cases gsel with
  | none =>
    rw [frameLoops_none sm gmm acc mat weights hw] at hs
    exact plainFrames_occupancy sm gmm k _ _ _ hs hk
  | some g =>
    rw [frameLoops_some sm gmm acc mat weights g hw (hg g rfl)] at hs
    exact selFrames_occupancy sm gmm k _ _ _ hs hk

theorem runLoop_occupancy (sm : SoftMax R) (gmm : DiagGmm R) (cfg : Config R) (k : Nat) :
    ∀ (feats : List (Utterance R)) (st st1 : DriverState R),
      runLoop sm gmm cfg feats st = .ok st1 → k < st.gmm_accs.occupancy.length →
        st1.gmm_accs.occupancy.length = st.gmm_accs.occupancy.length ∧
        entryAt st1.gmm_accs.occupancy k
          = entryAt st.gmm_accs.occupancy k + expectedOccupancy sm gmm cfg feats k := by
  intro feats
  induction feats with
  | nil =>
    intro st st1 h _
    simp only [runLoop, Except.ok.injEq] at h
    subst h
    simp [expectedOccupancy]
  | cons utt rest ih =>
    intro st st1 h hk
    simp only [runLoop] at h
    rw [processUtt_eq] at h
    cases hr : resolve cfg utt with
    | none =>
      simp only [hr] at h
      obtain ⟨h1, h2⟩ := ih (skipFile st) st1 h hk
      refine ⟨h1, ?_⟩
      rw [h2]
      simp [expectedOccupancy, hr, skipFile]
    | some p =>
      obtain ⟨w, g⟩ := p
      simp only [hr] at h
      have hlen := resolve_lengths cfg utt w g hr
      cases hf : frameLoops sm gmm st.gmm_accs utt.mat w g with
      | error e => simp [hf] at h
      | ok s =>
        simp only [hf] at h
        obtain ⟨h3, h4⟩ := frameLoops_occupancy sm gmm st.gmm_accs utt.mat w g hlen.1
          hlen.2 k hk s hf
        obtain ⟨h1, h2⟩ := ih (finishFile st s) st1 h (by simp only [finishFile, h3]; exact hk)
        refine ⟨by rw [h1]; simp only [finishFile, h3], ?_⟩
        rw [h2]
        simp only [finishFile, h4, expectedOccupancy, List.map_cons, List.sum_cons, hr,
          add_assoc]

/-- A component that is not a candidate has posterior 0. -/
theorem posteriorFor_of_not_mem (k : Nat) : ∀ (sel : List Nat) (post : List R),
    k ∉ sel → posteriorFor sel post k = 0 := by
  intro sel
  induction sel with
  | nil => intro post _; simp [posteriorFor]
  | cons a as ih =>
    intro post hk
    cases post with
    | nil => simp [posteriorFor]
    | cons b bs =>
      have hne : a ≠ k := fun h => hk (by simp [h])
      have hrest : k ∉ as := fun h => hk (List.mem_cons_of_mem _ h)
      have h := ih bs hrest
      simp only [posteriorFor] at h
      simp [posteriorFor, hne, h]

/-- With distinct candidates, the posterior of the candidate at position `j` is entry
`j` of the normalized vector. -/
theorem posteriorFor_of_nodup : ∀ (sel : List Nat) (post : List R), sel.Nodup →
    ∀ (j : Nat) (c : Nat) (p : R), sel[j]? = some c → post[j]? = some p →
      posteriorFor sel post c = p := by
  intro sel
  induction sel with
  | nil => intro post _ j c p h; simp at h
  | cons a as ih =>
    intro post hnd j c p hc hp
    cases post with
    | nil => simp at hp
    | cons b bs =>
      have hnd2 := List.nodup_cons.mp hnd
      cases j with
      | zero =>
        simp only [List.getElem?_cons_zero, Option.some.injEq] at hc hp
        subst hc; subst hp
        have h := posteriorFor_of_not_mem a as bs hnd2.1
        simp only [posteriorFor] at h
        simp [posteriorFor, h]
      | succ j =>
        simp only [List.getElem?_cons_succ] at hc hp
        have hmem : c ∈ as := List.getElem?_mem hc
        have hne : a ≠ c := fun h => hnd2.1 (h ▸ hmem)
        have h := ih bs hnd2.2 j c p hc hp
        simp only [posteriorFor] at h
        simp [posteriorFor, hne, h]

end Occupancy

/-! ## The claims -/

section Claims

variable {R : Type}

/-- C1: an utterance that violates the weight resolution or the selection resolution
(no entry, or an entry whose length differs from the frame count, for a configured
source) is skipped: processing it adds exactly one to the error counter, also when
several violations hold at once, and leaves the accumulator, the processed count, the
corpus likelihood total and the corpus weight total unchanged. -/
theorem skipped_utterance_counts_one_error [Zero R] [One R] [Add R] [Mul R]
    [DecidableEq R] (sm : SoftMax R) (gmm : DiagGmm R) (cfg : Config R)
    (st : DriverState R) (utt : Utterance R)
    (h : weightsViolation cfg utt = true ∨ gselectViolation cfg utt = true) :
    processUtt sm gmm cfg st utt
      = .ok { gmm_accs := st.gmm_accs, tot_like := st.tot_like,
              tot_weight := st.tot_weight, num_done := st.num_done,
              num_err := st.num_err + 1 } := by
  rw [processUtt_eq, (resolve_eq_none_iff cfg utt).mpr h]
  rfl

/-- Witness of C1: weights of the wrong length and a missing selection entry at once. -/
theorem skipped_utterance_counts_one_error_witness :
    weightsViolation cfgBad demoUtt = true ∧ gselectViolation cfgBad demoUtt = true ∧
      processUtt demoSoftMax demoGmm cfgBad (initState demoGmm demoFlags) demoUtt
        = .ok { gmm_accs := (initState demoGmm demoFlags).gmm_accs
                tot_like := (initState demoGmm demoFlags).tot_like
                tot_weight := (initState demoGmm demoFlags).tot_weight
                num_done := (initState demoGmm demoFlags).num_done
                num_err := (initState demoGmm demoFlags).num_err + 1 } :=
  ⟨by decide, by decide,
    skipped_utterance_counts_one_error demoSoftMax demoGmm cfgBad
      (initState demoGmm demoFlags) demoUtt (Or.inl (by decide))⟩

/-- C8: an utterance that passes weight and selection resolution and whose frame loop
runs to its end counts as processed: the processed count grows by exactly one, the
error count is unchanged and the utterance totals are added to the corpus totals.
This holds in particular when no frame contributed (no frame, or every frame weight
zero): the utterance totals are then both zero, and the corpus totals and the
accumulator are unchanged. -/
theorem passing_utterance_counts_as_processed [Semiring R] [DecidableEq R]
    (sm : SoftMax R) (gmm : DiagGmm R) (cfg : Config R) (st : DriverState R)
    (utt : Utterance R) (weights : List R) (gsel : Option (List (List Nat)))
    (hres : resolve cfg utt = some (weights, gsel)) :
    (∀ s, frameLoops sm gmm st.gmm_accs utt.mat weights gsel = .ok s →
        processUtt sm gmm cfg st utt
          = .ok { gmm_accs := s.gmm_accs, tot_like := st.tot_like + s.file_like,
                  tot_weight := st.tot_weight + s.file_weight,
                  num_done := st.num_done + 1, num_err := st.num_err }) ∧
    ((∀ x ∈ effWeights weights utt.mat.length, x = 0) →
        frameLoops sm gmm st.gmm_accs utt.mat weights gsel
          = .ok { gmm_accs := st.gmm_accs, file_like := 0, file_weight := 0 } ∧
        processUtt sm gmm cfg st utt
          = .ok { gmm_accs := st.gmm_accs, tot_like := st.tot_like,
                  tot_weight := st.tot_weight, num_done := st.num_done + 1,
                  num_err := st.num_err }) := by
  have hlen := resolve_lengths cfg utt weights gsel hres
  refine ⟨?_, ?_⟩
  · intro s hs
    rw [processUtt_eq, hres]
    simp only [hs, finishFile]
  · intro hz
    have hf := frameLoops_all_zero sm gmm st.gmm_accs utt.mat weights gsel hlen.1 hlen.2 hz
    refine ⟨hf, ?_⟩
    rw [processUtt_eq, hres]
    simp only [hf, finishFile, add_zero]

/-- Witness of C8: three frames of weight zero, each with an empty candidate list. -/
theorem passing_utterance_counts_as_processed_witness :
    resolve cfgZero demoUtt = some ([0, 0, 0], some [[], [], []]) ∧
      (∀ x ∈ effWeights ([0, 0, 0] : List ℤ) demoUtt.mat.length, x = 0) ∧
      processUtt demoSoftMax demoGmm cfgZero (initState demoGmm demoFlags) demoUtt
        = .ok { gmm_accs := (initState demoGmm demoFlags).gmm_accs
                tot_like := (initState demoGmm demoFlags).tot_like
                tot_weight := (initState demoGmm demoFlags).tot_weight
                num_done := (initState demoGmm demoFlags).num_done + 1
                num_err := (initState demoGmm demoFlags).num_err } :=
  ⟨by decide, by decide,
    ((passing_utterance_counts_as_processed demoSoftMax demoGmm cfgZero
      (initState demoGmm demoFlags) demoUtt [0, 0, 0] (some [[], [], []])
      (by decide)).2 (by decide)).2⟩

/-- C5: the run has three outcomes.  A fatal error gives the status -1.  A run without
fatal error gives the status 0 exactly when at least one utterance was processed
(passed resolution, not skipped), and the status 1 otherwise. -/
theorem exit_status_three_outcomes [Zero R] [One R] [Add R] [Mul R] [DecidableEq R]
    (sm : SoftMax R) (gmm : DiagGmm R) (cfg : Config R) (numArgs : Nat)
    (flags : GmmFlags) (feats : List (Utterance R)) :
    ((numArgs = 3 ∧ aborted (runLoop sm gmm cfg feats (initState gmm flags)) = true) →
        (main sm gmm cfg numArgs flags feats).status = -1) ∧
    (¬ (numArgs = 3 ∧ aborted (runLoop sm gmm cfg feats (initState gmm flags)) = true) →
        ((main sm gmm cfg numArgs flags feats).status = 0 ↔
          (numArgs = 3 ∧ ∃ utt ∈ feats, notSkipped cfg utt = true)) ∧
        (¬ (numArgs = 3 ∧ ∃ utt ∈ feats, notSkipped cfg utt = true) →
          (main sm gmm cfg numArgs flags feats).status = 1)) := by
  refine ⟨?_, ?_⟩
  · rintro ⟨h3, he⟩
    cases hr : runLoop sm gmm cfg feats (initState gmm flags) with
    | error e => simp [main, h3, hr]
    | ok st => simp [hr, aborted] at he
  · intro hnf
    by_cases h3 : numArgs = 3
    · cases hr : runLoop sm gmm cfg feats (initState gmm flags) with
      | error e => exact absurd ⟨h3, by simp [hr, aborted]⟩ hnf
      | ok st =>
        have hc := (runLoop_counts sm gmm cfg feats _ _ hr).1
        have hinit : (initState gmm flags).num_done = 0 := rfl
        rw [hinit, Nat.zero_add] at hc
        have hpos : st.num_done ≠ 0 ↔ ∃ utt ∈ feats, notSkipped cfg utt = true := by
          rw [hc, Nat.ne_zero_iff_zero_lt, List.countP_pos_iff]
        by_cases hd : st.num_done = 0
        · have hno : ¬ ∃ utt ∈ feats, notSkipped cfg utt = true :=
            fun hex => (hpos.mpr hex) hd
          simp [main, h3, hr, hd, hno]
        · have hyes : ∃ utt ∈ feats, notSkipped cfg utt = true := hpos.mp hd
          simp [main, h3, hr, hd, hyes]
    · simp [main, h3]

/-- Witness of C5: a run of status -1, a run of status 0 and a run of status 1. -/
theorem exit_status_three_outcomes_witness :
    (main demoSoftMax demoGmm cfgEmptySel 3 demoFlags [demoUtt]).status = -1 ∧
      ((main demoSoftMax demoGmm cfgWeights 3 demoFlags [demoUtt]).status = 0 ↔
        (3 = 3 ∧ ∃ utt ∈ [demoUtt], notSkipped cfgWeights utt = true)) ∧
      (main demoSoftMax demoGmm cfgBad 3 demoFlags [demoUtt]).status = 1 :=
  ⟨(exit_status_three_outcomes demoSoftMax demoGmm cfgEmptySel 3 demoFlags [demoUtt]).1
      ⟨rfl, by decide⟩,
    ((exit_status_three_outcomes demoSoftMax demoGmm cfgWeights 3 demoFlags [demoUtt]).2
      (by decide)).1,
    ((exit_status_three_outcomes demoSoftMax demoGmm cfgBad 3 demoFlags [demoUtt]).2
      (by decide)).2 (by decide)⟩

/-- C6: the accumulator is written to the sink exactly once, at the end, on every run
that reaches the end of the utterance loop; a run of status 0 wrote it exactly once; a
run that hit a fatal error wrote nothing, so a written sink means no fatal error.  A
run over a stream in which no utterance is processed (status 1) still writes the
sink once, with the accumulator as `Resize` left it. -/
theorem sink_written_once_unless_fatal [Zero R] [One R] [Add R] [Mul R] [DecidableEq R]
    (sm : SoftMax R) (gmm : DiagGmm R) (cfg : Config R) (numArgs : Nat)
    (flags : GmmFlags) (feats : List (Utterance R)) :
    (∀ st, numArgs = 3 → runLoop sm gmm cfg feats (initState gmm flags) = .ok st →
        (main sm gmm cfg numArgs flags feats).sink = [st.gmm_accs]) ∧
    ((main sm gmm cfg numArgs flags feats).status = 0 →
        ∃ st, runLoop sm gmm cfg feats (initState gmm flags) = .ok st ∧
          (main sm gmm cfg numArgs flags feats).sink = [st.gmm_accs]) ∧
    (aborted (runLoop sm gmm cfg feats (initState gmm flags)) = true →
        (main sm gmm cfg numArgs flags feats).sink = []) ∧
    ((main sm gmm cfg numArgs flags feats).sink ≠ [] →
        aborted (runLoop sm gmm cfg feats (initState gmm flags)) = false ∧
          (main sm gmm cfg numArgs flags feats).status ≠ -1) ∧
    (numArgs = 3 → (∀ utt ∈ feats, notSkipped cfg utt = false) →
        main sm gmm cfg numArgs flags feats
          = { status := 1, sink := [Resize gmm flags] }) := by
  refine ⟨?_, ?_, ?_, ?_, ?_⟩
  · intro st h3 hr
    simp [main, h3, hr]
  · intro h0
    by_cases h3 : numArgs = 3
    · cases hr : runLoop sm gmm cfg feats (initState gmm flags) with
      | error e => simp [main, h3, hr] at h0
      | ok st => exact ⟨st, rfl, by simp [main, h3, hr]⟩
    · simp [main, h3] at h0
  · intro ha
    by_cases h3 : numArgs = 3
    · cases hr : runLoop sm gmm cfg feats (initState gmm flags) with
      | error e => simp [main, h3, hr]
      | ok st => simp [hr, aborted] at ha
    · simp [main, h3]
  · intro hs
    by_cases h3 : numArgs = 3
    · cases hr : runLoop sm gmm cfg feats (initState gmm flags) with
      | error e => simp [main, h3, hr] at hs
      | ok st =>
        refine ⟨rfl, ?_⟩
        by_cases hd : st.num_done = 0 <;> simp [main, h3, hr, hd]
    · simp [main, h3] at hs
  · intro h3 hall
    have hr := runLoop_all_skipped sm gmm cfg feats (initState gmm flags) hall
    simp only [main, h3, hr]
    simp [initState]

/-- Witness of C6: a run of status 0 writes one accumulator; a run in which the only
utterance is skipped has status 1 and writes the untouched accumulator. -/
theorem sink_written_once_unless_fatal_witness :
    (∃ st, runLoop demoSoftMax demoGmm cfgWeights [demoUtt] (initState demoGmm demoFlags)
        = .ok st ∧
      (main demoSoftMax demoGmm cfgWeights 3 demoFlags [demoUtt]).sink = [st.gmm_accs]) ∧
    main demoSoftMax demoGmm cfgBad 3 demoFlags [demoUtt]
      = { status := 1, sink := [Resize demoGmm demoFlags] } :=
  ⟨(sink_written_once_unless_fatal demoSoftMax demoGmm cfgWeights 3 demoFlags
      [demoUtt]).2.1 (by decide),
    (sink_written_once_unless_fatal demoSoftMax demoGmm cfgBad 3 demoFlags
      [demoUtt]).2.2.2.2 rfl (by decide)⟩

/-- C2: a frame of weight exactly 0 is inert, with and without a selection source.  For
an utterance that is not skipped, removing every frame of weight 0 together with its
weight entry and its selection entry gives an utterance that is not skipped either,
and the frame loops return the same accumulator, the same utterance likelihood total
and the same utterance weight total (or stop with the same error); hence the pass of
the utterance loop is the same. -/
theorem zero_weight_frames_inert [Zero R] [One R] [Add R] [Mul R] [DecidableEq R]
    (sm : SoftMax R) (gmm : DiagGmm R) (cfg : Config R) (acc : AccumDiagGmm R)
    (utt : Utterance R) (weights : List R) (gsel : Option (List (List Nat)))
    (hres : resolve cfg utt = some (weights, gsel)) :
    resolve (dropZeroConfig cfg utt weights)
        { key := utt.key, mat := dropZeroFrames weights utt.mat }
      = some (dropZeroWeights weights utt.mat.length,
          gsel.map (dropZeroGselect weights utt.mat.length)) ∧
    frameLoops sm gmm acc (dropZeroFrames weights utt.mat)
        (dropZeroWeights weights utt.mat.length)
        (gsel.map (dropZeroGselect weights utt.mat.length))
      = frameLoops sm gmm acc utt.mat weights gsel ∧
    (∀ st, processUtt sm gmm (dropZeroConfig cfg utt weights) st
        { key := utt.key, mat := dropZeroFrames weights utt.mat }
      = processUtt sm gmm cfg st utt) := by
  have hlen := resolve_lengths cfg utt weights gsel hres
  have hsrc := resolve_sources cfg utt weights gsel hres
  have hl := dropZero_lengths weights utt.mat gsel hlen.1 hlen.2
  have hloops : ∀ a : AccumDiagGmm R,
      frameLoops sm gmm a (dropZeroFrames weights utt.mat)
          (dropZeroWeights weights utt.mat.length)
          (gsel.map (dropZeroGselect weights utt.mat.length))
        = frameLoops sm gmm a utt.mat weights gsel :=
    fun a => frameLoops_dropZero sm gmm a utt.mat weights gsel hlen.1 hlen.2
  have hres2 : resolve (dropZeroConfig cfg utt weights)
        { key := utt.key, mat := dropZeroFrames weights utt.mat }
      = some (dropZeroWeights weights utt.mat.length,
          gsel.map (dropZeroGselect weights utt.mat.length)) := by
    have hrw : readWeights (dropZeroConfig cfg utt weights) utt.key
        (dropZeroFrames weights utt.mat).length
          = some (dropZeroWeights weights utt.mat.length) := by
      rcases hsrc.1 with ⟨h1, h2⟩ | ⟨rd, h1, _, h3⟩
      · subst h2
        simp [readWeights, dropZeroConfig, h1, dropZeroWeights, keepWhere_nil]
      · have hk : (dropZeroWeights weights utt.mat.length).length
            = (dropZeroFrames weights utt.mat).length :=
          keepWhere_length_eq _ _ _ h3
        simp [readWeights, dropZeroConfig, h1, hk]
    unfold resolve
    simp only [hrw]
    rcases hsrc.2 with ⟨h1, h2⟩ | ⟨rd, g, h1, h2, h3, h4⟩
    · subst h2
      simp [dropZeroConfig, h1]
    · subst h3
      have hk := hl.2 g rfl
      simp [dropZeroConfig, h1, h2, hk]
  refine ⟨hres2, hloops acc, ?_⟩
  intro st
  rw [processUtt_eq, processUtt_eq, hres2, hres]
  simp only [hloops st.gmm_accs]

/-- Witness of C2: weights `[1, 0, 2]` with candidates `[[0, 1], [], [1]]`; the frame of
weight zero, whose candidate list is empty, can be removed. -/
theorem zero_weight_frames_inert_witness :
    resolve cfgBoth demoUtt = some ([1, 0, 2], some [[0, 1], [], [1]]) ∧
      frameLoops demoSoftMax demoGmm (Resize demoGmm demoFlags)
          (dropZeroFrames [1, 0, 2] demoUtt.mat)
          (dropZeroWeights [1, 0, 2] demoUtt.mat.length)
          ((some [[0, 1], [], [1]]).map (dropZeroGselect ([1, 0, 2] : List ℤ)
            demoUtt.mat.length))
        = frameLoops demoSoftMax demoGmm (Resize demoGmm demoFlags) demoUtt.mat
            [1, 0, 2] (some [[0, 1], [], [1]]) :=
  ⟨by decide,
    (zero_weight_frames_inert demoSoftMax demoGmm cfgBoth (Resize demoGmm demoFlags)
      demoUtt [1, 0, 2] (some [[0, 1], [], [1]]) (by decide)).2.1⟩

/-- C4: for a model with at least one component (so that the list of all components is
an admissible, non-empty candidate list), a frame and a non-zero frame weight, the frame
loop without selection (`AccumulateFromDiag` with that weight) and the frame loop with
the candidate list `[0, ..., C-1]` (preselected log-likelihoods, softmax, scaling by the
weight, `AccumulateForComponent` for each candidate) return the same accumulator, the
same utterance likelihood total and the same utterance weight total; both fail alike
on a frame that does not have the model's dimension. -/
theorem full_selection_matches_no_selection [Zero R] [One R] [Add R] [Mul R]
    [DecidableEq R] (sm : SoftMax R) (gmm : DiagGmm R) (s : FileStats R) (data : List R)
    (weight : R) (hC : 0 < gmm.NumGauss) (hw : weight ≠ 0) :
    gselectLoop sm gmm [data] [weight] [List.range gmm.NumGauss] 1 0 s
      = plainLoop sm gmm [data] [weight] 1 0 s ∧
    plainLoop sm gmm [data] [weight] 1 0 s
      = (match AccumulateFromDiag sm gmm s.gmm_accs data weight with
          | .error e => .error e
          | .ok r =>
            .ok { gmm_accs := r.2
                  file_like := s.file_like + weight * r.1
                  file_weight := s.file_weight + weight }) ∧
    (data.length = gmm.Dim →
      plainLoop sm gmm [data] [weight] 1 0 s
        = .ok { gmm_accs :=
                  accumulatePairs s.gmm_accs data
                    ((List.range gmm.NumGauss).zip
                      (Scale (ApplySoftMax sm
                        (scoreComponents gmm data (List.range gmm.NumGauss))).2 weight))
                file_like := s.file_like
                  + weight * (ApplySoftMax sm
                      (scoreComponents gmm data (List.range gmm.NumGauss))).1
                file_weight := s.file_weight + weight }) := by
  have hne : ¬ (List.range gmm.NumGauss).length = 0 := by
    rw [List.length_range]; omega
  have hplain : plainLoop sm gmm [data] [weight] 1 0 s
      = (match AccumulateFromDiag sm gmm s.gmm_accs data weight with
          | .error e => .error e
          | .ok r =>
            .ok { gmm_accs := r.2
                  file_like := s.file_like + weight * r.1
                  file_weight := s.file_weight + weight }) := by
    simp only [plainLoop, frameWeight, List.length_singleton, ne_eq, one_ne_zero,
      not_false_eq_true, if_true, List.getElem?_cons_zero, hw, if_false]
  have hsel : gselectLoop sm gmm [data] [weight] [List.range gmm.NumGauss] 1 0 s
      = (match AccumulateFromDiag sm gmm s.gmm_accs data weight with
          | .error e => .error e
          | .ok r =>
            .ok { gmm_accs := r.2
                  file_like := s.file_like + weight * r.1
                  file_weight := s.file_weight + weight }) := by
    simp only [gselectLoop, frameWeight, List.length_singleton, ne_eq, one_ne_zero,
      not_false_eq_true, if_true, List.getElem?_cons_zero, hw, if_false, hne,
      LogLikelihoodsPreselect_eq, AccumulateFromDiag_eq]
    by_cases hd : data.length = gmm.Dim
    · simp only [hd, not_true_eq_false, if_false, accumulateSelected_scaled]
    · simp only [hd, not_false_eq_true, if_true]
  refine ⟨by rw [hsel, hplain], hplain, ?_⟩
  intro hd
  rw [hplain, AccumulateFromDiag_eq]
  simp only [hd, ne_eq, not_true_eq_false, if_false]

/-- Witness of C4: the two-component model, the frame `[3]` and the weight 2. -/
theorem full_selection_matches_no_selection_witness :
    0 < demoGmm.NumGauss ∧ (2 : ℤ) ≠ 0 ∧
      gselectLoop demoSoftMax demoGmm [[3]] [2] [List.range demoGmm.NumGauss] 1 0
          { gmm_accs := Resize demoGmm demoFlags, file_like := 0, file_weight := 0 }
        = plainLoop demoSoftMax demoGmm [[3]] [2] 1 0
          { gmm_accs := Resize demoGmm demoFlags, file_like := 0, file_weight := 0 } :=
  ⟨by decide, by decide,
    (full_selection_matches_no_selection demoSoftMax demoGmm
      { gmm_accs := Resize demoGmm demoFlags, file_like := 0, file_weight := 0 } [3] 2
      (by decide) (by decide)).1⟩

/-- C7: for an utterance that is not skipped and whose frame loops, started by the
driver from zero utterance totals, run to the end: the utterance weight total is the
sum of its frame weights (the frame count when no weight source is configured), the
utterance likelihood total is the sum over the frames of the weight times the total
log-likelihood of the frame, and the accumulator has been updated from the frames of
non-zero weight only, each with its posteriors scaled by the weight of the frame.
These totals are what the pass of the utterance loop adds to the corpus totals.  The
frame loops run to the end unless a frame of non-zero weight has an empty candidate
list or a dimension that is not the model's. -/
theorem utterance_totals_are_weighted_sums [Semiring R] [DecidableEq R]
    (sm : SoftMax R) (gmm : DiagGmm R) (cfg : Config R) (st : DriverState R)
    (utt : Utterance R) (weights : List R) (gsel : Option (List (List Nat)))
    (hres : resolve cfg utt = some (weights, gsel)) :
    (∀ s,
        (match gsel with
          | some g =>
            gselectLoop sm gmm utt.mat weights g utt.mat.length 0 (startFile st)
          | none => plainLoop sm gmm utt.mat weights utt.mat.length 0 (startFile st))
          = .ok s →
        s.file_weight = (effWeights weights utt.mat.length).sum ∧
        (cfg.weights_reader = none → s.file_weight = (utt.mat.length : R)) ∧
        s.file_like = weightedLogLike sm gmm utt.mat weights gsel ∧
        s.gmm_accs = updatedAccs sm gmm st.gmm_accs utt.mat weights gsel) ∧
    (∀ st1, processUtt sm gmm cfg st utt = .ok st1 →
        st1 = { gmm_accs := updatedAccs sm gmm st.gmm_accs utt.mat weights gsel
                tot_like := st.tot_like + weightedLogLike sm gmm utt.mat weights gsel
                tot_weight := st.tot_weight + (effWeights weights utt.mat.length).sum
                num_done := st.num_done + 1
                num_err := st.num_err }) ∧
    (wrongDimension gmm utt.mat weights = false →
      (gsel = none ∨
        ∃ g, gsel = some g ∧ emptyCandidates weights utt.mat.length g = false) →
        ∃ st1, processUtt sm gmm cfg st utt = .ok st1) := by
  have hlen := resolve_lengths cfg utt weights gsel hres
  have hsrc := resolve_sources cfg utt weights gsel hres
  have hcount : cfg.weights_reader = none →
      (effWeights weights utt.mat.length).sum = (utt.mat.length : R) := by
    intro hnone
    rcases hsrc.1 with ⟨_, h2⟩ | ⟨rd, h1, _, _⟩
    · subst h2
      simp [effWeights, sum_replicate_one]
    · rw [h1] at hnone; cases hnone
  have hproc : processUtt sm gmm cfg st utt =
      match frameLoops sm gmm st.gmm_accs utt.mat weights gsel with
      | .error e => .error e
      | .ok s => .ok (finishFile st s) := by
    rw [processUtt_eq, hres]
  refine ⟨?_, ?_, ?_⟩
  · intro s hs
    rw [startFile_loops_eq] at hs
    obtain ⟨h1, h2, h3⟩ := frameLoops_totals sm gmm st.gmm_accs utt.mat weights gsel
      hlen.1 hlen.2 s hs
    exact ⟨h1, fun hn => by rw [h1, hcount hn], h2, h3⟩
  · intro st1 h
    rw [hproc] at h
    cases hf : frameLoops sm gmm st.gmm_accs utt.mat weights gsel with
    | error e => simp [hf] at h
    | ok s =>
      obtain ⟨h1, h2, h3⟩ := frameLoops_totals sm gmm st.gmm_accs utt.mat weights gsel
        hlen.1 hlen.2 s hf
      simp only [hf, Except.ok.injEq] at h
      rw [← h]
      simp only [finishFile, h1, h2, h3]
  · intro hW h
    rw [hproc]
    rcases h with h | ⟨g, h1, h2⟩
    · subst h
      obtain ⟨s1, hs1⟩ :=
        (frameLoops_outcome_none sm gmm st.gmm_accs utt.mat weights hlen.1).1 hW
      exact ⟨finishFile st s1, by simp only [hs1]⟩
    · subst h1
      obtain ⟨s1, hs1⟩ :=
        (frameLoops_outcome sm gmm st.gmm_accs utt.mat weights g hlen.1
          (hlen.2 g rfl)).1 h2 hW
      exact ⟨finishFile st s1, by simp only [hs1]⟩

/-- Witness of C7: three frames with the weights `[1, 0, 2]` and the candidates
`[[0, 1], [], [1]]`: the weight total is 3, the likelihood total is -9, and the
accumulator holds the updates of frames 0 and 2. -/
theorem utterance_totals_are_weighted_sums_witness :
    resolve cfgBoth offUtt = some ([1, 0, 2], some [[0, 1], [], [1]]) ∧
      processUtt demoSoftMax demoGmm cfgBoth (initState demoGmm demoFlags) offUtt
        = .ok { gmm_accs :=
                  { flags := demoFlags
                    occupancy := [1, 2]
                    mean_accumulator := [[1], [16]]
                    variance_accumulator := [[1], [128]] }
                tot_like := -9
                tot_weight := 3
                num_done := 1
                num_err := 0 } ∧
      ({ gmm_accs :=
          { flags := demoFlags
            occupancy := [1, 2]
            mean_accumulator := [[1], [16]]
            variance_accumulator := [[1], [128]] }
         tot_like := -9
         tot_weight := 3
         num_done := 1
         num_err := 0 } : DriverState ℤ)
        = { gmm_accs := updatedAccs demoSoftMax demoGmm
              (initState demoGmm demoFlags).gmm_accs offUtt.mat [1, 0, 2]
              (some [[0, 1], [], [1]])
            tot_like := (initState demoGmm demoFlags).tot_like
              + weightedLogLike demoSoftMax demoGmm offUtt.mat [1, 0, 2]
                  (some [[0, 1], [], [1]])
            tot_weight := (initState demoGmm demoFlags).tot_weight
              + (effWeights ([1, 0, 2] : List ℤ) offUtt.mat.length).sum
            num_done := (initState demoGmm demoFlags).num_done + 1
            num_err := (initState demoGmm demoFlags).num_err } :=
  ⟨by decide, by decide,
    (utterance_totals_are_weighted_sums demoSoftMax demoGmm cfgBoth
      (initState demoGmm demoFlags) offUtt [1, 0, 2] (some [[0, 1], [], [1]])
      (by decide)).2.1 _ (by decide)⟩

/-- The scenario of the specification, without selection: with the weights `[1, 0, 2]`
the weight total is 3 and the accumulator is updated from frames 0 and 2 only, the
latter with twice its posteriors. -/
theorem weights_one_zero_two_scenario :
    frameLoops demoSoftMax demoGmm (Resize demoGmm demoFlags) offUtt.mat [1, 0, 2] none
      = .ok { gmm_accs :=
                frameUpdate demoSoftMax demoGmm
                  (frameUpdate demoSoftMax demoGmm (Resize demoGmm demoFlags) [1] 1 none)
                  [8] 2 none
              file_like := -9
              file_weight := 3 } ∧
    (Resize demoGmm demoFlags).occupancy = [0, 0] ∧
    (frameUpdate demoSoftMax demoGmm (Resize demoGmm demoFlags) [1] 1 none).occupancy
      = [1, 0] ∧
    (frameUpdate demoSoftMax demoGmm
      (frameUpdate demoSoftMax demoGmm (Resize demoGmm demoFlags) [1] 1 none)
      [8] 2 none).occupancy = [1, 2] := by
  decide

/-- C3: after the utterance loop has processed a stream, the occupancy of every
component `c` of the model is the sum, over the frames of non-zero weight of the
utterances that are not skipped, of the frame weight times the normalized posterior of
`c` for the frame (0 when `c` is not a candidate), the posterior being taken over the
candidate list of the frame, or over all components without a selection source. -/
theorem occupancy_is_weighted_posterior_sum [CommSemiring R] [DecidableEq R]
    (sm : SoftMax R) (gmm : DiagGmm R) (cfg : Config R) (flags : GmmFlags)
    (feats : List (Utterance R)) (st1 : DriverState R) (c : Nat)
    (hrun : runLoop sm gmm cfg feats (initState gmm flags) = .ok st1)
    (hc : c < gmm.NumGauss) :
    st1.gmm_accs.occupancy[c]? = some (expectedOccupancy sm gmm cfg feats c) := by
  have hlen0 : (initState gmm flags).gmm_accs.occupancy.length = gmm.NumGauss := by
    simp [initState, Resize]
  have hzero : ∀ (n k : Nat), entryAt (List.replicate n (0 : R)) k = 0 := by
    intro n
    induction n with
    | zero => intro k; rfl
    | succ n ih =>
      intro k
      cases k with
      | zero => rfl
      | succ k => simpa [List.replicate_succ, entryAt] using ih k
  have h0 : entryAt (initState gmm flags).gmm_accs.occupancy c = 0 := by
    simp only [initState, Resize]
    exact hzero _ _
  obtain ⟨h1, h2⟩ := runLoop_occupancy sm gmm cfg c feats _ st1 hrun (by rw [hlen0]; exact hc)
  rw [entryAt_eq_getElem? _ c (by rw [h1, hlen0]; exact hc), h2, h0, zero_add]

/-- Witness of C3: one utterance with the weights `[1, 0, 2]`; the occupancy of
component 1 is 2. -/
theorem occupancy_is_weighted_posterior_sum_witness :
    runLoop demoSoftMax demoGmm cfgWeights [demoUtt] (initState demoGmm demoFlags)
        = .ok { gmm_accs :=
                  { flags := demoFlags
                    occupancy := [1, 2]
                    mean_accumulator := [[0], [20]]
                    variance_accumulator := [[0], [200]] }
                tot_like := 0
                tot_weight := 3
                num_done := 1
                num_err := 0 } ∧
      1 < demoGmm.NumGauss ∧
      ([1, 2] : List ℤ)[1]?
        = some (expectedOccupancy demoSoftMax demoGmm cfgWeights [demoUtt] 1) :=
  ⟨by decide, by decide,
    occupancy_is_weighted_posterior_sum demoSoftMax demoGmm cfgWeights demoFlags
      [demoUtt]
      { gmm_accs :=
          { flags := demoFlags
            occupancy := [1, 2]
            mean_accumulator := [[0], [20]]
            variance_accumulator := [[0], [200]] }
        tot_like := 0
        tot_weight := 3
        num_done := 1
        num_err := 0 } 1 (by decide) (by decide)⟩

end Claims


end GmmGlobalAccStats
